import Mathlib

/-
Verification development for the Compylerts transpiler (Python -> TypeScript).

The definitions below are a shallow embedding of the Python sources in
src/backend/: `error_handler.py`, `symbol_table.py`, `ply_lexer.py` and
`main.py`.  Python strings are modelled as `List Char` (with `String`
wrappers), Python dicts used by the symbol table as insertion-ordered
association lists, and the module-global `error_handler` singleton as an
explicitly threaded `ErrorHandler` state.  Helper functions named `py...`
reproduce the semantics of the corresponding Python builtins
(`str.find`, `str.rfind`, slicing with negative indices, `str.strip`,
`str.splitlines`, ...), restricted to the `\n`-only line endings and the
ASCII class handling that the repository's inputs exercise.
-/

set_option maxRecDepth 100000

namespace Compylerts

/-- Whitespace characters stripped by Python's `str.strip` / `str.lstrip`. -/
def isPyWs (c : Char) : Bool :=
  c = ' ' || c = '\t' || c = '\n' || c = '\r' || c = '\x0b' || c = '\x0c'

/-- Python `str.lstrip()` on a list of characters. -/
def pyLStripL (l : List Char) : List Char :=
  l.dropWhile isPyWs

/-- Python `str.strip()` on a list of characters. -/
def pyStripL (l : List Char) : List Char :=
  ((l.dropWhile isPyWs).reverse.dropWhile isPyWs).reverse

/-- Python `str.strip()`. -/
def pyStrip (s : String) : String :=
  ⟨pyStripL s.data⟩

/-- Python `len(line) - len(line.lstrip())`: the leading-whitespace count. -/
def pyIndentOf (s : String) : Nat :=
  s.data.length - (pyLStripL s.data).length

/-- Split a character list at every occurrence of a separator character. -/
def splitOnChar (sep : Char) : List Char → List (List Char)
  | [] => [[]]
  | c :: rest =>
    let r := splitOnChar sep rest
    if c = sep then [] :: r
    else
      match r with
      | [] => [[c]]
      | h :: t => (c :: h) :: t

/-- Python `str.split(sep)` for a one-character separator (no maxsplit). -/
def pySplitChar (s : String) (sep : Char) : List String :=
  (splitOnChar sep s.data).map (fun l => ⟨l⟩)

/-- Python `str.splitlines()` for `\n`-terminated text: split on `\n`,
dropping the final empty piece produced by a trailing newline. -/
def pySplitlines (s : String) : List String :=
  if s.data = [] then []
  else
    let parts := splitOnChar '\n' s.data
    let parts := if s.data.getLast? = some '\n' then parts.dropLast else parts
    parts.map (fun l => ⟨l⟩)

/-- Python `str.split()` (split on whitespace runs, no empty pieces). -/
def pySplitWsAux : List Char → List Char → List (List Char)
  | [], acc => if acc = [] then [] else [acc.reverse]
  | c :: rest, acc =>
    if isPyWs c then
      if acc = [] then pySplitWsAux rest []
      else acc.reverse :: pySplitWsAux rest []
    else pySplitWsAux rest (c :: acc)

/-- Python `str.split()` returning strings. -/
def pySplitWs (s : String) : List String :=
  (pySplitWsAux s.data []).map (fun l => ⟨l⟩)

/-- Whether `sub` occurs inside `hay` as a contiguous run. -/
def isInfixL (sub hay : List Char) : Bool :=
  (List.range (hay.length + 1)).any (fun i => sub.isPrefixOf (hay.drop i))

/-- Whether `sub` occurs inside `hay` (Python's `sub in hay`). -/
def pyInStr (sub hay : String) : Bool :=
  isInfixL sub.data hay.data

/-- Python `s.startswith(p)` (the core `String.startsWith` walks byte
positions, which does not reduce definitionally, so prefixes are checked
on the character lists). -/
def pyStartsWith (s p : String) : Bool :=
  p.data.isPrefixOf s.data

/-- Python `s.endswith(p)`. -/
def pyEndsWith (s p : String) : Bool :=
  p.data.isSuffixOf s.data

/-- First index at which `sub` occurs in `l`, as Python `str.find`
(`-1` when absent).  The empty needle matches at index 0. -/
def pyFindL (l sub : List Char) : Int :=
  match (List.range (l.length + 1)).find? (fun i => sub.isPrefixOf (l.drop i)) with
  | some i => (i : Int)
  | none => -1

/-- Python `hay.find(sub)`. -/
def pyFind (hay sub : String) : Int :=
  pyFindL hay.data sub.data

/-- Last index at which `sub` occurs in `l`, as Python `str.rfind`
(`-1` when absent). -/
def pyRFindL (l sub : List Char) : Int :=
  match ((List.range (l.length + 1)).filter
      (fun i => sub.isPrefixOf (l.drop i))).getLast? with
  | some i => (i : Int)
  | none => -1

/-- Python `hay.rfind(sub)`. -/
def pyRFind (hay sub : String) : Int :=
  pyRFindL hay.data sub.data

/-- Normalise a Python slice endpoint: negative indices count from the end,
then the result is clamped into `[0, len]`. -/
def pySliceIdx (len : Nat) (i : Int) : Nat :=
  if i < 0 then (len + i).toNat else if i.toNat ≤ len then i.toNat else len

/-- Python `s[a:b]` with possibly negative bounds. -/
def pySlice (s : String) (a b : Int) : String :=
  let lo := pySliceIdx s.data.length a
  let hi := pySliceIdx s.data.length b
  ⟨(s.data.take hi).drop lo⟩

/-- Python `hay.rfind(sub, start, stop)`: the search is confined to
`hay[start:stop]` and the hit index is reported in `hay`'s coordinates. -/
def pyRFindRange (hay sub : String) (start stop : Int) : Int :=
  let lo := pySliceIdx hay.data.length start
  let seg := pySlice hay (Int.ofNat lo) stop
  let r := pyRFind seg sub
  if r < 0 then -1 else (lo : Int) + r

/-- Python `s * n` for a repeated string (empty when `n <= 0`). -/
def pyRepeat (s : String) (n : Int) : String :=
  ⟨(List.replicate n.toNat s.data).flatten⟩

/-- Replace every occurrence of `old` (non-empty) by `new`, left to right,
as Python `str.replace`.  Fuel bounds the recursion by the text length. -/
def pyReplaceAux (old new : List Char) : Nat → List Char → List Char
  | 0, l => l
  | _ + 1, [] => []
  | fuel + 1, c :: rest =>
    if old ≠ [] ∧ old.isPrefixOf (c :: rest) then
      new ++ pyReplaceAux old new fuel ((c :: rest).drop old.length)
    else
      c :: pyReplaceAux old new fuel rest

/-- Python `s.replace(old, new)` (for non-empty `old`). -/
def pyReplace (s old new : String) : String :=
  ⟨pyReplaceAux old.data new.data s.data.length s.data⟩

/-- ASCII lowercase of one character (all the characters the repository
compares after `.lower()` are ASCII or already lowercase). -/
def pyLowerChar (c : Char) : Char :=
  if 'A' ≤ c ∧ c ≤ 'Z' then Char.ofNat (c.toNat + 32) else c

/-- Python `str.lower()` restricted to ASCII letters. -/
def pyLower (s : String) : String :=
  ⟨s.data.map pyLowerChar⟩

/-- Sum of `len(l) + 1` over the first `k` lines: the absolute offset of
line `k` (0-based) when every line ends in one `\n`.  This is the
`sum(len(l) + 1 for l in source_lines[:lineno - 1])` expression of
`ply_lexer.py`. -/
def lineOffsetSum (lines : List String) (k : Nat) : Nat :=
  ((lines.take k).map (fun l => l.data.length + 1)).sum

/-- Value of a decimal digit run. -/
def digitsToNat (l : List Char) : Nat :=
  l.foldl (fun acc c => acc * 10 + (c.toNat - '0'.toNat)) 0

/-
Model of src/backend/error_handler.py: the `ErrorType` enum, the
`CompilerError` dataclass and the `ErrorHandler` accumulator whose single
module-level instance (`error_handler = ErrorHandler()`, line 215) is shared
by the lexer, the parser and `main.compile_to_typescript`.
-/

/-- The `ErrorType` enum of error_handler.py. -/
inductive ErrorType where
  | LEXICAL
  | SYNTACTIC
  | SEMANTIC
  | TYPE
deriving DecidableEq, Repr

/-- The `.value` string of an `ErrorType` member, used as a sort key by
`format_errors`. -/
def ErrorType.value : ErrorType → String
  | .LEXICAL => "LEXICAL"
  | .SYNTACTIC => "SYNTACTIC"
  | .SEMANTIC => "SEMANTIC"
  | .TYPE => "TYPE"

/-- The `CompilerError` record: type, line, message, offending source line,
column and suggestion.  The column is an `Int` because the Python code can
produce `-1` (a failed `rfind`). -/
structure CompilerError where
  etype : ErrorType
  line : Nat
  message : String
  codeLine : String
  column : Int
  suggestion : String
deriving DecidableEq, Repr

/-- `CompilerError.__eq__`: structural equality on type, line, message and
column only (`code_line` and `suggestion` are ignored), the relation used
by `add_error`'s `error not in self.errors` dedup test. -/
def pyEqCE (a b : CompilerError) : Bool :=
  a.etype = b.etype && a.line = b.line && a.message = b.message && a.column = b.column

/-- State of an `ErrorHandler` instance: the accumulated error list and the
`function_advice_added` flag. -/
structure ErrorHandler where
  errors : List CompilerError
  functionAdviceAdded : Bool
deriving DecidableEq, Repr

/-- A fresh `ErrorHandler()`. -/
def ErrorHandler.init : ErrorHandler :=
  ⟨[], false⟩

/-- `ErrorHandler.add_error`: append the error unless a `__eq__`-equal one
is already recorded. -/
def addError (eh : ErrorHandler) (e : CompilerError) : ErrorHandler :=
  if eh.errors.any (fun x => pyEqCE e x) then eh
  else { eh with errors := eh.errors ++ [e] }

/-- `ErrorHandler.has_errors`. -/
def hasErrors (eh : ErrorHandler) : Bool :=
  eh.errors.length > 0

/-- `ErrorHandler.get_errors_by_type`. -/
def getErrorsByType (eh : ErrorHandler) (t : ErrorType) : List CompilerError :=
  eh.errors.filter (fun e => e.etype = t)

/-- `ErrorHandler.clear_errors`: reset both fields. -/
def clearErrors (_eh : ErrorHandler) : ErrorHandler :=
  ⟨[], false⟩

/-- The name between the first pair of single quotes of a message:
`error.message.split("'")[1]` in `remove_function_errors`. -/
def extractQuotedName (msg : String) : String :=
  ((pySplitChar msg '\'').get? 1).getD ""

/-- Condition under which `remove_function_errors` drops an error, given the
set of pre-scanned function names. -/
def isRemovableFuncError (defined : List String) (e : CompilerError) : Bool :=
  e.etype = ErrorType.SEMANTIC
    && pyInStr "Función '" e.message
    && pyInStr "' no está definida" e.message
    && defined.contains (extractQuotedName e.message)

/-- `ErrorHandler.remove_function_errors`: drop every "Función ... no está
definida" semantic error whose function name was in fact defined.  The
Python loop records matching indices and pops them back to front, which is
the same as filtering them out. -/
def removeFunctionErrors (eh : ErrorHandler) (defined : List String) : ErrorHandler :=
  { eh with errors := eh.errors.filter (fun e => !(isRemovableFuncError defined e)) }

/-- Sort key of `format_errors`: `(e.type.value, e.line)` compared as a
Python tuple (string lexicographically, then the line number). -/
def ceKeyLe (a b : CompilerError) : Bool :=
  a.etype.value < b.etype.value
    || (a.etype.value = b.etype.value && a.line ≤ b.line)

/-- Insert an element after every existing element whose key is `<=` its
own, preserving the relative order of equal keys (so the result of the
repeated insertion below agrees with Python's stable `list.sort`). -/
def stableInsert (x : CompilerError) : List CompilerError → List CompilerError
  | [] => [x]
  | y :: l => if ceKeyLe y x then y :: stableInsert x l else x :: y :: l

/-- Stable sort by `(type.value, line)`, modelling `self.errors.sort(...)`
in `format_errors`. -/
def stableSortCE (l : List CompilerError) : List CompilerError :=
  l.foldl (fun acc x => stableInsert x acc) []

/-- The distinct error types of a sorted list, in first-occurrence order:
the iteration order of the `error_by_type` dict built by `format_errors`. -/
def distinctTypes (l : List CompilerError) : List ErrorType :=
  l.foldl (fun acc e => if acc.contains e.etype then acc else acc ++ [e.etype]) []

/-- Rendering of one error inside `format_errors`. -/
def renderError (e : CompilerError) : String :=
  let head := s!"  Línea {e.line}: {e.message}\n"
  let ctx :=
    if e.codeLine ≠ "" then
      let caret :=
        if e.column ≥ 0 then
          let pad := pyRepeat " " e.column
          s!"      {pad}^ Aquí\n"
        else ""
      s!"  En el código:\n      {e.codeLine}\n" ++ caret
    else ""
  let sugg := if e.suggestion ≠ "" then s!"  Sugerencia: {e.suggestion}\n" else ""
  head ++ ctx ++ sugg

/-- `ErrorHandler.format_errors`: sorts the stored list in place (the
returned handler keeps the sorted list), groups by type, renders each
error, and appends the once-per-compilation function advice when some
semantic message mentions "función". -/
def formatErrors (eh : ErrorHandler) : String × ErrorHandler :=
  if eh.errors = [] then ("No se encontraron errores.", eh)
  else
    let sorted := stableSortCE eh.errors
    let groups := (distinctTypes sorted).map
      (fun t => (t, sorted.filter (fun e => e.etype = t)))
    let body := groups.foldl
      (fun acc g =>
        let tv := g.1.value
        acc ++ s!"\n{tv}:\n" ++ String.join (g.2.map renderError))
      "\n❌ Errores encontrados:\n"
    let mentions := sorted.any
      (fun e => e.etype = ErrorType.SEMANTIC && pyInStr "función" (pyLower e.message))
    let tail :=
      if mentions then
        "\nConsejo: Asegúrate de que todas las funciones que usas estén definidas antes de llamarlas."
      else ""
    (body ++ tail,
     { errors := sorted, functionAdviceAdded := eh.functionAdviceAdded || mentions })

/-
Model of src/backend/symbol_table.py: `Symbol`, `Scope` and `SymbolTable`.
A scope chain is represented as the list of scopes strictly above the
global scope (`above`, innermost first) plus the global scope itself; the
current scope is the head of `above` when that list is non-empty and the
global scope otherwise.  `Scope.children` is write-only in the source
(appended in `enter_scope`, never read) and is not modelled.
-/

/-- The `Symbol` dataclass.  `parameters` defaults to `None` in Python and
is itself a list of symbols for functions; `value` is never read by any of
the modelled operations and is omitted. -/
inductive Symbol where
  | mk : (name : String) → (declType : String) → (kind : String) →
      (parameters : Option (List Symbol)) → (returnType : Option String) → Symbol

/-- Name of a symbol. -/
def Symbol.name : Symbol → String
  | .mk n _ _ _ _ => n

/-- Kind of a symbol ("variable", "function" or "parameter"). -/
def Symbol.kind : Symbol → String
  | .mk _ _ k _ _ => k

/-- A symbol with no parameters and no return type. -/
def Symbol.plain (name declType kind : String) : Symbol :=
  .mk name declType kind none none

/-- Insertion-ordered dict lookup (`name in scope.symbols` /
`scope.symbols[name]`). -/
def dictGet (d : List (String × Symbol)) (n : String) : Option Symbol :=
  (d.find? (fun p => p.1 = n)).map (·.2)

/-- Dict assignment `d[n] = s`: replace the first binding of `n` in place,
or append a new one. -/
def dictSet (d : List (String × Symbol)) (n : String) (s : Symbol) : List (String × Symbol) :=
  if (d.find? (fun p => p.1 = n)).isSome then
    d.map (fun p => if p.1 = n then (n, s) else p)
  else d ++ [(n, s)]

/-- One `Scope`: its symbol dict and its `scope_type` string. -/
structure Scope where
  symbols : List (String × Symbol)
  scopeType : String

/-- The `SymbolTable` state: the scopes strictly above the global scope
(innermost first; the parent chain) and the global scope, plus the
table's own `errors` list of message strings. -/
structure SymTable where
  above : List Scope
  globalScope : Scope
  errors : List String

/-- The current scope: head of the chain, or the global scope. -/
def SymTable.current (st : SymTable) : Scope :=
  st.above.headD st.globalScope

/-- Replace the current scope's symbol dict. -/
def SymTable.setCurrentSymbols (st : SymTable) (d : List (String × Symbol)) : SymTable :=
  match st.above with
  | [] => { st with globalScope := { st.globalScope with symbols := d } }
  | s :: rest => { st with above := { s with symbols := d } :: rest }

/-- `SymbolTable.enter_scope`: push a fresh scope whose parent is the old
current scope. -/
def enterScope (st : SymTable) (stype : String) : SymTable :=
  { st with above := ⟨[], stype⟩ :: st.above }

/-- `SymbolTable.exit_scope`: move to the parent when one exists; at the
global scope (`parent is None`) nothing happens. -/
def exitScope (st : SymTable) : SymTable :=
  match st.above with
  | [] => st
  | _ :: rest => { st with above := rest }

/-- `SymbolTable.define`: a symbol of kind "function" is always bound in
the global scope (false plus a recorded message if the name is already
there); any other symbol is bound in the current scope under the same
already-bound rule. -/
def defineSym (st : SymTable) (sym : Symbol) : Bool × SymTable :=
  if sym.kind = "function" then
    if (dictGet st.globalScope.symbols sym.name).isSome then
      let n := sym.name
      (false, { st with errors :=
        st.errors ++ [s!"Error semántico: La función '{n}' ya está definida"] })
    else
      (true, { st with globalScope :=
        { st.globalScope with symbols := dictSet st.globalScope.symbols sym.name sym } })
  else
    if (dictGet (st.current).symbols sym.name).isSome then
      let n := sym.name
      (false, { st with errors :=
        st.errors ++ [s!"Error semántico: La variable '{n}' ya está definida en este ámbito"] })
    else
      (true, st.setCurrentSymbols (dictSet (st.current).symbols sym.name sym))

/-- `Scope.resolve` from the current scope: first match walking the parent
chain down to the global scope. -/
def resolveSym (st : SymTable) (n : String) : Option Symbol :=
  let rec go : List Scope → Option Symbol
    | [] => dictGet st.globalScope.symbols n
    | s :: rest =>
      match dictGet s.symbols n with
      | some v => some v
      | none => go rest
  go st.above

/-- The builtin symbols pre-registered by `_define_builtins`. -/
def builtinSymbols : List Symbol :=
  [Symbol.mk "int" "type" "function" (some []) (some "int"),
   Symbol.mk "str" "type" "function" (some []) (some "str"),
   Symbol.mk "float" "type" "function" (some []) (some "float"),
   Symbol.mk "bool" "type" "function" (some []) (some "bool"),
   Symbol.mk "print" "function" "function"
     (some [Symbol.plain "value" "any" "parameter"]) (some "None"),
   Symbol.mk "input" "function" "function"
     (some [Symbol.plain "prompt" "str" "parameter"]) (some "str"),
   Symbol.mk "len" "function" "function"
     (some [Symbol.plain "obj" "any" "parameter"]) (some "int")]

/-- A fresh `SymbolTable()`: a single global scope holding the builtins
(`Scope.define` is used there, so each name is bound once). -/
def symTableInit : SymTable :=
  let g := builtinSymbols.foldl
    (fun sc b =>
      if (dictGet sc.symbols b.name).isSome then sc
      else { sc with symbols := sc.symbols ++ [(b.name, b)] })
    (⟨[], "global"⟩ : Scope)
  ⟨[], g, []⟩

/-
Model of src/backend/ply_lexer.py.  PLY compiles the class into a master
regex whose alternatives are the function rules in source order
(t_STRING, t_UNCLOSED_STRING, t_ID, t_NUMBER, t_NEWLINE, t_COMMENT,
t_ARROW, t_COMMA, t_LPAREN, t_RPAREN, t_LBRACKET, t_RBRACKET) followed by
the string rules sorted by decreasing pattern length, and tries them in
that order at each position after skipping the `t_ignore` characters
(space and tab).  Because the leading characters of these rules are
disjoint, the scanner below dispatches on the first character; the only
ordered pairs are string-vs-unclosed-string (same opener, tried in that
order) and `->` before `-`.  Greedy backtracking makes the string rule
close at the first occurrence of the opening quote character on the line
(the `\"` alternative is shadowed by `[^"\n]` consuming the backslash).

`token()` (lines 162-170) returns `self.lexer.token()` unchanged: the
INDENT/DEDENT entries pushed onto `self.tokens_queue` by `t_NEWLINE` are
never dequeued, and nothing ever emits an EOF token — at end of input PLY
returns `None` and the stream just stops.  The queue, the indent stack and
the delimiter stacks are still modelled as part of the lexer state.
-/

/-- PLY token names of the lexer (the `tokens` tuple plus `EOF`, which
appears only in the file's dead `TokenType` enum; `INDENT`/`DEDENT` are in
the tuple but only ever placed on the internal queue). -/
inductive TokKind where
  | FSTRING
  | ID
  | NUMBER
  | STRING
  | PLUS
  | MINUS
  | TIMES
  | DIVIDE
  | MOD
  | EQ
  | NE
  | LT
  | GT
  | LE
  | GE
  | LPAREN
  | RPAREN
  | LBRACKET
  | RBRACKET
  | COMMA
  | COLON
  | ASSIGN
  | NEWLINE
  | INDENT
  | DEDENT
  | KEYWORD
  | ARROW
  | EOF
deriving DecidableEq, Repr

/-- A token's `value` slot: a string, an `int(...)` or a `float(...)`
(the float literal is kept as its source text; no arithmetic is ever
performed on it in the modelled pipeline). -/
inductive TokValue where
  | s (v : String)
  | i (n : Int)
  | f (raw : String)
deriving DecidableEq, Repr

/-- A PLY token: type, value, line and absolute position. -/
structure PTok where
  kind : TokKind
  value : TokValue
  lineno : Nat
  lexpos : Nat
deriving DecidableEq, Repr

/-- The keyword set of `PLYLexer.keywords`. -/
def pyKeywords : List String :=
  ["def", "if", "else", "elif", "while", "for", "in", "return", "break",
   "continue", "class", "import", "from", "as", "try", "except", "finally",
   "with", "not", "and", "or", "is", "None", "True", "False"]

/-- The `known_funcs` list local to `t_ID`. -/
def tIdKnownFuncs : List String :=
  ["print", "input", "len", "str", "int", "float", "list", "range"]

/-- `PLYLexer._is_similar`: crude edit-distance test used for typo
suggestions. -/
def isSimilar (s1 s2 : String) : Bool :=
  let l1 := s1.data
  let l2 := s2.data
  if ((l1.length : Int) - l2.length).natAbs > 1 then false
  else if isInfixL l1 l2 || isInfixL l2 l1 then true
  else if l1.length = l2.length then
    ((l1.zip l2).countP (fun p => p.1 ≠ p.2)) ≤ 2
  else
    let a := if l1.length < l2.length then l2 else l1
    let b := if l1.length < l2.length then l1 else l2
    (List.range a.length).any (fun i => (a.take i ++ a.drop (i + 1)) = b)

/-- `PLYLexer._find_column`: position of the last `\n` before `lexpos`
(or 0 when there is none) subtracted from `lexpos`. -/
def findColumn (src : List Char) (lexpos : Nat) : Int :=
  let lastCr := pyRFindL (src.take lexpos) ['\n']
  let lastCr := if lastCr < 0 then 0 else lastCr
  (lexpos : Int) - lastCr

/-- Column formula of `t_ID` and `t_error`:
`lexpos - sum(len(l) + 1 for l in source_lines[:lineno - 1])`. -/
def absColumn (lines : List String) (lineno lexpos : Nat) : Int :=
  (lexpos : Int) - (lineOffsetSum lines (lineno - 1) : Int)

/-- First character of an identifier (`[a-zA-Z_]`). -/
def isIdStart (c : Char) : Bool :=
  ('a' ≤ c && c ≤ 'z') || ('A' ≤ c && c ≤ 'Z') || c = '_'

/-- Later character of an identifier (`[a-zA-Z0-9_]`). -/
def isIdChar (c : Char) : Bool :=
  isIdStart c || ('0' ≤ c && c ≤ '9')

/-- A decimal digit. -/
def isDigitC (c : Char) : Bool :=
  '0' ≤ c && c ≤ '9'

/-- Errors produced by `check_unclosed_delimiters` (run in
`PLYLexer.__init__`): per line, an unmatched `(` with no later `)` and an
unmatched `[` with no later `]`, each reported once. -/
def checkUnclosedDelimsErrors (lines : List String) : List CompilerError :=
  ((List.enumFrom 1 lines).map
    (fun li =>
      let i := li.1
      let line := li.2
      let parenPart :=
        if pyInStr "(" line
            && !(pyInStr ")" (pySlice line (pyFind line "(") (line.data.length : Int))) then
          let col := pyFind line "("
          [⟨ErrorType.SYNTACTIC, i, "Paréntesis sin cerrar", line, col,
            "Agrega el paréntesis de cierre ')'"⟩]
        else []
      let brPart :=
        if pyInStr "[" line
            && !(pyInStr "]" (pySlice line (pyFind line "[") (line.data.length : Int))) then
          let col := pyFind line "["
          [⟨ErrorType.SYNTACTIC, i, "Corchete sin cerrar", line, col,
            "Agrega el corchete de cierre ']'"⟩]
        else []
      parenPart ++ brPart)).flatten

/-- Errors produced by `check_invalid_characters`: for each line, its part
before any `#`, then one lexical error per offending character of the
`'@#$&~%60'` set (`#` itself skipped), at that character's first index. -/
def checkInvalidCharsErrors (lines : List String) : List CompilerError :=
  let invalid : List Char := ['@', '#', '$', '&', '~', '`']
  ((List.enumFrom 1 lines).map
    (fun li =>
      let i := li.1
      let line := li.2
      let commentPos := pyFind line "#"
      let checkLine := if commentPos = -1 then line else pySlice line 0 commentPos
      (invalid.map
        (fun ch =>
          if ch = '#' then []
          else if checkLine.data.contains ch then
            let col := pyFindL checkLine.data [ch]
            [(⟨ErrorType.LEXICAL, i, s!"Carácter no válido '{ch}'", line, col,
              s!"El carácter '{ch}' no está permitido en el lenguaje"⟩ : CompilerError)]
          else [])).flatten)).flatten

/-- A queued INDENT/DEDENT entry of `self.tokens_queue`. -/
structure QEntry where
  kind : TokKind
  line : Nat
deriving DecidableEq, Repr

/-- Final state of a fully drained lexer: the emitted token list (in
order), the shared error handler, and the instance attributes. -/
structure LexOut where
  toks : List PTok
  eh : ErrorHandler
  istack : List Nat
  queue : List QEntry
  pstack : List (Nat × Int)
  bstack : List (Nat × Int)
  validCode : Bool
  lineno : Nat
deriving Repr

/-- Prepend a freshly matched token to a scan continuation. -/
def consTok (t : PTok) (out : LexOut) : LexOut :=
  { out with toks := t :: out.toks }

/-- The DEDENT-popping loop of `t_NEWLINE`: pop while the new indentation
is smaller than the stack top, queueing one DEDENT per pop. -/
def popDedents (indent ln : Nat) : List Nat → List QEntry → List Nat × List QEntry
  | [], q => ([], q)
  | t :: rest, q =>
    if indent < t then popDedents indent ln rest (q ++ [⟨TokKind.DEDENT, ln⟩])
    else (t :: rest, q)

/-- The indentation bookkeeping of `t_NEWLINE` after a run of newlines:
peek past spaces/tabs; on a non-blank, non-comment line push/pop the
indent stack, queue INDENT/DEDENT entries and report inconsistent
indentation. -/
def newlineIndent (src : List Char) (lines : List String)
    (matchPos afterPos newLineno : Nat) (istack : List Nat) (queue : List QEntry)
    (eh : ErrorHandler) : List Nat × List QEntry × ErrorHandler :=
  if afterPos < src.length then
    let wsLen := ((src.drop afterPos).takeWhile (fun d => d = ' ' || d = '\t')).length
    let p2 := afterPos + wsLen
    match src.get? p2 with
    | some d =>
      if d ≠ '\n' ∧ d ≠ '#' then
        let indent := wsLen
        let top := istack.headD 0
        if indent > top then
          (indent :: istack, queue ++ [⟨TokKind.INDENT, newLineno⟩], eh)
        else if indent < top then
          let popped := popDedents indent newLineno istack queue
          let istack1 := popped.1
          let queue1 := popped.2
          if indent ≠ istack1.headD 0 then
            let expected := istack1.headD 0
            let lineTxt := lines.getD (newLineno - 1) ""
            let eh1 := addError eh
              ⟨ErrorType.SYNTACTIC, newLineno,
               s!"Indentación inconsistente. Se esperaba un nivel de {expected} espacios.",
               lineTxt, findColumn src matchPos,
               "Revisa la indentación del código para que sea consistente"⟩
            (istack1, queue1, eh1)
          else (istack1, queue1, eh)
        else (istack, queue, eh)
      else (istack, queue, eh)
    | none => (istack, queue, eh)
  else (istack, queue, eh)

/-- Abbreviation for the type of the scan continuation: the remaining
input is drained from a given position and lexer state. -/
def ScanK : Type :=
  Nat → Nat → List Nat → List QEntry → List (Nat × Int) → List (Nat × Int) →
    ErrorHandler → Bool → LexOut

/-- The `t_STRING` / `t_UNCLOSED_STRING` pair, tried at an opening quote
`c` not preceded by `f` (the regex lookbehind).  A closing quote on the
same line ends the string there — greedy backtracking in the Python regex
makes the first occurrence of the quote close it; otherwise the unclosed
handler fires: it records the long lexical message and then skips to the
next `\n`. -/
def stringRule (src : List Char) (lines : List String) (k : ScanK)
    (pos lineno : Nat) (istack : List Nat) (queue : List QEntry)
    (pstack bstack : List (Nat × Int)) (eh : ErrorHandler) (valid : Bool)
    (c : Char) : LexOut :=
  let lineRest := (src.drop (pos + 1)).takeWhile (fun d => d ≠ '\n')
  match (List.range lineRest.length).find? (fun j => lineRest.get? j = some c) with
  | some kk =>
    consTok ⟨TokKind.STRING, TokValue.s ⟨lineRest.take kk⟩, lineno, pos⟩
      (k (pos + kk + 2) lineno istack queue pstack bstack eh valid)
  | none =>
    let hasNl := src.get? (pos + 1 + lineRest.length) = some '\n'
    let matchedLen := 1 + lineRest.length + (if hasNl then 1 else 0)
    let quoteType : String := if c = '"' then "\"" else "'"
    let contentFix := pyStrip ⟨(src.drop (pos + 1)).take (matchedLen - 1)⟩
    let lineTxt := lines.getD (lineno - 1) ""
    let col := findColumn src pos
    let pad := pyRepeat " " col
    let msg := s!"Error léxico en línea {lineno}: String sin cerrar correctamente\nEn el código:\n    {lineTxt}\n    {pad}^ Falta cerrar el string con {quoteType}\nSugerencia: El string debe terminar con la misma comilla con la que inicia.\nPara corregir este error, añade {quoteType} al final del string:\n    nombre = {quoteType}{contentFix}{quoteType}\nTambién verifica si hay una coma faltante después del string."
    let eh1 := addError eh
      ⟨ErrorType.LEXICAL, lineno, msg, lineTxt, col,
       "Revisa los strings y asegúrate de que estén correctamente cerrados"⟩
    let p2 := pos + matchedLen
    let skipLen := ((src.drop p2).takeWhile (fun d => d ≠ '\n')).length
    k (p2 + skipLen) lineno istack queue pstack bstack eh1 false

/-- The `t_ID` rule: a keyword or identifier, plus the undefined-function
heuristic fired when the next character is `(` and the name is not a
known function. -/
def idRule (src : List Char) (lines : List String) (k : ScanK)
    (pos lineno : Nat) (istack : List Nat) (queue : List QEntry)
    (pstack bstack : List (Nat × Int)) (eh : ErrorHandler) (valid : Bool)
    (c : Char) : LexOut :=
  let idChars := c :: (src.drop (pos + 1)).takeWhile isIdChar
  let value : String := ⟨idChars⟩
  let isKw := pyKeywords.contains value
  let undef := !isKw && src.get? (pos + idChars.length) = some '('
      && !(tIdKnownFuncs.contains value)
  let eh1 :=
    if undef then
      let typos := tIdKnownFuncs.filter (fun f => isSimilar value f)
      let sugg :=
        match typos with
        | [] => s!"Asegúrate de que la función '{value}' esté definida antes de usarla"
        | t0 :: _ =>
          s!"¿Quisiste decir '{t0}'? Asegúrate de escribir correctamente el nombre de la función."
      addError eh
        ⟨ErrorType.SEMANTIC, lineno, s!"Función '{value}' no está definida",
         lines.getD (lineno - 1) "", absColumn lines lineno pos, sugg⟩
    else eh
  consTok ⟨if isKw then TokKind.KEYWORD else TokKind.ID, TokValue.s value, lineno, pos⟩
    (k (pos + idChars.length) lineno istack queue pstack bstack eh1
      (if undef then false else valid))

/-- The `t_NUMBER` rule: digits, optionally followed by `.` and more
digits (then converted by `float(...)`, kept here as source text). -/
def numberRule (src : List Char) (_lines : List String) (k : ScanK)
    (pos lineno : Nat) (istack : List Nat) (queue : List QEntry)
    (pstack bstack : List (Nat × Int)) (eh : ErrorHandler) (valid : Bool)
    (c : Char) : LexOut :=
  let intPart := c :: (src.drop (pos + 1)).takeWhile isDigitC
  let ilen := intPart.length
  let fracOk :=
    src.get? (pos + ilen) = some '.'
      && (match src.get? (pos + ilen + 1) with
          | some d => isDigitC d
          | none => false)
  if fracOk then
    let fracPart := (src.drop (pos + ilen + 1)).takeWhile isDigitC
    let text : String := ⟨intPart ++ '.' :: fracPart⟩
    consTok ⟨TokKind.NUMBER, TokValue.f text, lineno, pos⟩
      (k (pos + ilen + 1 + fracPart.length) lineno istack queue pstack bstack eh valid)
  else
    consTok ⟨TokKind.NUMBER, TokValue.i (digitsToNat intPart), lineno, pos⟩
      (k (pos + ilen) lineno istack queue pstack bstack eh valid)

/-- The `t_NEWLINE` rule: consume the `\n+` run, advance `lineno`, do the
indentation bookkeeping, and emit the NEWLINE token (carrying the line
number from before the run, as PLY assigns it at match time). -/
def newlineRule (src : List Char) (lines : List String) (k : ScanK)
    (pos lineno : Nat) (istack : List Nat) (queue : List QEntry)
    (pstack bstack : List (Nat × Int)) (eh : ErrorHandler) (valid : Bool) : LexOut :=
  let run := 1 + ((src.drop (pos + 1)).takeWhile (fun d => d = '\n')).length
  let newLineno := lineno + run
  let upd := newlineIndent src lines pos (pos + run) newLineno istack queue eh
  consTok ⟨TokKind.NEWLINE, TokValue.s (pyRepeat "\n" run), lineno, pos⟩
    (k (pos + run) newLineno upd.1 upd.2.1 pstack bstack upd.2.2 valid)

/-- A fixed-text operator or delimiter token of the given width (the
string rules of the lexer plus `t_ARROW` and `t_COMMA`). -/
def opRule (k : ScanK) (kind : TokKind) (text : String) (width : Nat)
    (pos lineno : Nat) (istack : List Nat) (queue : List QEntry)
    (pstack bstack : List (Nat × Int)) (eh : ErrorHandler) (valid : Bool) : LexOut :=
  consTok ⟨kind, TokValue.s text, lineno, pos⟩
    (k (pos + width) lineno istack queue pstack bstack eh valid)

/-- `t_LPAREN`: push the position onto the parenthesis stack. -/
def lparenRule (src : List Char) (k : ScanK)
    (pos lineno : Nat) (istack : List Nat) (queue : List QEntry)
    (pstack bstack : List (Nat × Int)) (eh : ErrorHandler) (valid : Bool) : LexOut :=
  consTok ⟨TokKind.LPAREN, TokValue.s "(", lineno, pos⟩
    (k (pos + 1) lineno istack queue ((lineno, findColumn src pos) :: pstack) bstack eh valid)

/-- `t_RPAREN`: report an unmatched closer on an empty stack, else pop. -/
def rparenRule (src : List Char) (lines : List String) (k : ScanK)
    (pos lineno : Nat) (istack : List Nat) (queue : List QEntry)
    (pstack bstack : List (Nat × Int)) (eh : ErrorHandler) (valid : Bool) : LexOut :=
  match pstack with
  | [] =>
    let eh1 := addError eh
      ⟨ErrorType.SYNTACTIC, lineno, "Paréntesis de cierre sin coincidencia",
       lines.getD (lineno - 1) "", findColumn src pos,
       "Agrega el paréntesis de apertura '(' correspondiente"⟩
    consTok ⟨TokKind.RPAREN, TokValue.s ")", lineno, pos⟩
      (k (pos + 1) lineno istack queue [] bstack eh1 false)
  | _ :: prest =>
    consTok ⟨TokKind.RPAREN, TokValue.s ")", lineno, pos⟩
      (k (pos + 1) lineno istack queue prest bstack eh valid)

/-- `t_LBRACKET`: push the position onto the bracket stack. -/
def lbracketRule (src : List Char) (k : ScanK)
    (pos lineno : Nat) (istack : List Nat) (queue : List QEntry)
    (pstack bstack : List (Nat × Int)) (eh : ErrorHandler) (valid : Bool) : LexOut :=
  consTok ⟨TokKind.LBRACKET, TokValue.s "[", lineno, pos⟩
    (k (pos + 1) lineno istack queue pstack ((lineno, findColumn src pos) :: bstack) eh valid)

/-- `t_RBRACKET`: report an unmatched closer on an empty stack, else pop. -/
def rbracketRule (src : List Char) (lines : List String) (k : ScanK)
    (pos lineno : Nat) (istack : List Nat) (queue : List QEntry)
    (pstack bstack : List (Nat × Int)) (eh : ErrorHandler) (valid : Bool) : LexOut :=
  match bstack with
  | [] =>
    let eh1 := addError eh
      ⟨ErrorType.SYNTACTIC, lineno, "Corchete de cierre sin coincidencia",
       lines.getD (lineno - 1) "", findColumn src pos,
       "Agrega el corchete de apertura '[' correspondiente"⟩
    consTok ⟨TokKind.RBRACKET, TokValue.s "]", lineno, pos⟩
      (k (pos + 1) lineno istack queue pstack [] eh1 false)
  | _ :: brest =>
    consTok ⟨TokKind.RBRACKET, TokValue.s "]", lineno, pos⟩
      (k (pos + 1) lineno istack queue pstack brest eh valid)

/-- `t_error`: silent skip for characters after a `#` on the reported
line (the Python code compares the absolute `lexpos` with the column of
`#`, faithfully reproduced), else a lexical diagnostic and a one-character
skip. -/
def errCharRule (_src : List Char) (lines : List String) (k : ScanK)
    (pos lineno : Nat) (istack : List Nat) (queue : List QEntry)
    (pstack bstack : List (Nat × Int)) (eh : ErrorHandler) (valid : Bool)
    (c : Char) : LexOut :=
  let ln := lines.getD (lineno - 1) ""
  if pyInStr "#" ln ∧ (pos : Int) > pyFind ln "#" then
    k (pos + 1) lineno istack queue pstack bstack eh valid
  else
    let eh1 := addError eh
      ⟨ErrorType.LEXICAL, lineno, s!"Carácter no válido '{c}'", ln,
       absColumn lines lineno pos, "Revisa los caracteres permitidos en el lenguaje"⟩
    k (pos + 1) lineno istack queue pstack bstack eh1 false

/-- One step of the master scan loop: skip `t_ignore` characters, then
dispatch on the first character to the rule the PLY master regex would
try (function rules in line order, then the string rules longest first;
the leading characters of the rules are disjoint, so this dispatch is
the regex alternation). -/
def scanStep (src : List Char) (lines : List String) (k : ScanK)
    (pos lineno : Nat) (istack : List Nat) (queue : List QEntry)
    (pstack bstack : List (Nat × Int)) (eh : ErrorHandler) (valid : Bool) : LexOut :=
  match src.get? pos with
  | none => ⟨[], eh, istack, queue, pstack, bstack, valid, lineno⟩
  | some c =>
    if c = ' ' ∨ c = '\t' then
      k (pos + 1) lineno istack queue pstack bstack eh valid
    else if (c = '"' ∨ c = '\'') ∧ ¬(pos > 0 ∧ src.get? (pos - 1) = some 'f') then
      stringRule src lines k pos lineno istack queue pstack bstack eh valid c
    else if isIdStart c then
      idRule src lines k pos lineno istack queue pstack bstack eh valid c
    else if isDigitC c then
      numberRule src lines k pos lineno istack queue pstack bstack eh valid c
    else if c = '\n' then
      newlineRule src lines k pos lineno istack queue pstack bstack eh valid
    else if c = '#' then
      let skipLen := ((src.drop (pos + 1)).takeWhile (fun d => d ≠ '\n')).length
      k (pos + 1 + skipLen) lineno istack queue pstack bstack eh valid
    else if c = '-' ∧ src.get? (pos + 1) = some '>' then
      opRule k TokKind.ARROW "->" 2 pos lineno istack queue pstack bstack eh valid
    else if c = ',' then
      opRule k TokKind.COMMA "," 1 pos lineno istack queue pstack bstack eh valid
    else if c = '(' then
      lparenRule src k pos lineno istack queue pstack bstack eh valid
    else if c = ')' then
      rparenRule src lines k pos lineno istack queue pstack bstack eh valid
    else if c = '[' then
      lbracketRule src k pos lineno istack queue pstack bstack eh valid
    else if c = ']' then
      rbracketRule src lines k pos lineno istack queue pstack bstack eh valid
    else if c = '=' then
      if src.get? (pos + 1) = some '=' then
        opRule k TokKind.EQ "==" 2 pos lineno istack queue pstack bstack eh valid
      else
        opRule k TokKind.ASSIGN "=" 1 pos lineno istack queue pstack bstack eh valid
    else if c = '<' then
      if src.get? (pos + 1) = some '=' then
        opRule k TokKind.LE "<=" 2 pos lineno istack queue pstack bstack eh valid
      else
        opRule k TokKind.LT "<" 1 pos lineno istack queue pstack bstack eh valid
    else if c = '>' then
      if src.get? (pos + 1) = some '=' then
        opRule k TokKind.GE ">=" 2 pos lineno istack queue pstack bstack eh valid
      else
        opRule k TokKind.GT ">" 1 pos lineno istack queue pstack bstack eh valid
    else if c = '!' ∧ src.get? (pos + 1) = some '=' then
      opRule k TokKind.NE "!=" 2 pos lineno istack queue pstack bstack eh valid
    else if c = '+' then
      opRule k TokKind.PLUS "+" 1 pos lineno istack queue pstack bstack eh valid
    else if c = '*' then
      opRule k TokKind.TIMES "*" 1 pos lineno istack queue pstack bstack eh valid
    else if c = '/' then
      opRule k TokKind.DIVIDE "/" 1 pos lineno istack queue pstack bstack eh valid
    else if c = '%' then
      opRule k TokKind.MOD "%" 1 pos lineno istack queue pstack bstack eh valid
    else if c = ':' then
      opRule k TokKind.COLON ":" 1 pos lineno istack queue pstack bstack eh valid
    else if c = '-' then
      opRule k TokKind.MINUS "-" 1 pos lineno istack queue pstack bstack eh valid
    else
      errCharRule src lines k pos lineno istack queue pstack bstack eh valid c

/-- The master scan loop: one step per call of the underlying PLY
`token()`, driven until it yields nothing (as `compile_to_typescript` and
`PLYParser.debug_token_stream` drive it).  `fuel` only bounds the
recursion; every step advances `pos` by at least one. -/
def scan (src : List Char) (lines : List String) :
    Nat → Nat → Nat → List Nat → List QEntry → List (Nat × Int) → List (Nat × Int) →
    ErrorHandler → Bool → LexOut
  | 0, _, lineno, istack, queue, pstack, bstack, eh, valid =>
    ⟨[], eh, istack, queue, pstack, bstack, valid, lineno⟩
  | fuel + 1, pos, lineno, istack, queue, pstack, bstack, eh, valid =>
    scanStep src lines (scan src lines fuel) pos lineno istack queue pstack bstack eh valid

/-- A `PLYLexer(source)` constructed and drained to exhaustion, as
`compile_to_typescript` does: the `__init__` delimiter/character checks
feed the shared error handler, then the scan produces the token list. -/
def lexAll (src : String) (eh : ErrorHandler) : LexOut :=
  let lines := pySplitlines src
  let initErrs := checkUnclosedDelimsErrors lines ++ checkInvalidCharsErrors lines
  let eh1 := initErrs.foldl addError eh
  scan src.data lines (src.data.length + 1) 0 1 [0] [] [] [] eh1 (initErrs = [])

/-- The token sequence the tokenizer hands to its callers. -/
def tokensOf (src : String) : List PTok :=
  (lexAll src ErrorHandler.init).toks

/-
Model of src/backend/main.py: `compile_to_typescript` and the two direct
converters it can reach, `convert_control_structures` and
`convert_simple_expressions` (`convert_simple_function` and the
TypeScript AST generator are unreachable from `compile_to_typescript`:
the former is never called, and the latter requires a non-None AST,
which `PLYParser.parse` never returns because it evaluates the attribute
`lexer.errors` that `PLYLexer.__init__` never sets, so the resulting
AttributeError is caught inside `parse` and `None` comes back).
-/

/-- Python `str.split(sep)` for a multi-character separator. -/
def pySplitStrAux (sep : List Char) : Nat → List Char → List (List Char)
  | 0, l => [l]
  | fuel + 1, l =>
    let idx := pyFindL l sep
    if sep = [] ∨ idx < 0 then [l]
    else l.take idx.toNat :: pySplitStrAux sep fuel (l.drop (idx.toNat + sep.length))

/-- Python `s.split(sep)` for a non-empty string separator. -/
def pySplitStr (s sep : String) : List String :=
  (pySplitStrAux sep.data (s.data.length + 1) s.data).map (fun l => ⟨l⟩)

/-- Join a list of lines with `\n` (Python `'\n'.join`). -/
def joinNl (l : List String) : String :=
  match l with
  | [] => ""
  | h :: t => t.foldl (fun acc x => acc ++ "\n" ++ x) h

/-- ASCII word character (`\w` for the repository's sources). -/
def isWordChar (c : Char) : Bool :=
  isIdChar c

/-- One line matched by `re.search(r'\b(if|for|while)\b.*:', ...)`: a
whole-word `if`/`for`/`while` with a `:` later on the same line (`.` does
not cross a newline, so the regex match lies within one line). -/
def lineHasCtrlRegex (l : List Char) : Bool :=
  (List.range l.length).any (fun i =>
    ["if", "for", "while"].any (fun w =>
      let wl := w.data
      wl.isPrefixOf (l.drop i)
        && (i = 0 || !(isWordChar (l.getD (i - 1) ' ')))
        && (decide (i + wl.length ≥ l.length) || !(isWordChar (l.getD (i + wl.length) ' ')))
        && (l.drop (i + wl.length)).contains ':'))

/-- The control-structure heuristic of `compile_to_typescript` (lines
86-88): the regex above or a literal `else:` anywhere. -/
def hasControlStructures (src : String) : Bool :=
  (pySplitlines src).any (fun ln => lineHasCtrlRegex ln.data) || pyInStr "else:" src

/-- The `def` pre-scan of `compile_to_typescript` (lines 38-55): names of
lines whose stripped text starts with `def `, taken as the second
whitespace-separated word up to its first `(` (extraction failures are
swallowed by the bare `except`).  Only its use as the
`remove_function_errors` argument is observable; the parser attributes it
also fills feed the yacc actions, which are never reached. -/
def preScanDefs (src : String) : List String :=
  ((pySplitlines src).map
    (fun line =>
      let stripped := pyStrip line
      if pyStartsWith stripped "def " then
        match (pySplitWs stripped).get? 1 with
        | some w => [(⟨w.data.takeWhile (fun ch => ch ≠ '(')⟩ : String)]
        | none => []
      else [])).flatten

/-- The trailing-comma pre-scan of `compile_to_typescript` (lines 59-80):
on a line containing `(`, `)` and `,`, drop any `#` comment tail, and when
the text between the outermost parentheses ends in a comma, record one
syntactic error at the comma. -/
def trailingCommaScan (src : String) (eh : ErrorHandler) : ErrorHandler :=
  (List.enumFrom 1 (pySplitlines src)).foldl
    (fun eh0 li =>
      let i := li.1
      let line := li.2
      if pyInStr "(" line && pyInStr ")" line && pyInStr "," line then
        let line1 := if pyInStr "#" line then (pySplitChar line '#').headD "" else line
        let fs := pyFind line1 "("
        let fe := pyRFind line1 ")"
        if fs < fe then
          let args := pySlice line1 (fs + 1) fe
          if pyEndsWith (pyStrip args) "," then
            let commaPos := pyRFindRange line1 "," fs fe
            addError eh0
              ⟨ErrorType.SYNTACTIC, i, "Coma suelta en argumentos de función", line1,
               commaPos, "Elimina la coma o añade otro argumento después de la coma"⟩
          else eh0
        else eh0
      else eh0)
    eh

/-- The parenthesis-matching loop in the `print` branch of
`convert_control_structures`: index (within `stripped[openParen:]`) of
the parenthesis that brings the nesting level back to zero. -/
def findCloseIdx : List Char → Nat → Nat → Option Nat
  | [], _, _ => none
  | ch :: rest, i, lvl =>
    if ch = '(' then findCloseIdx rest (i + 1) (lvl + 1)
    else if ch = ')' then
      if lvl - 1 = 0 then some i else findCloseIdx rest (i + 1) (lvl - 1)
    else findCloseIdx rest (i + 1) lvl

/-- First pass of `convert_control_structures`: the per-line rewrite. -/
def ccFirstPassLine (line : String) : String :=
  let stripped := pyStrip line
  if stripped = "" || pyStartsWith stripped "#" then line
  else
    let indentStr := pyRepeat " " (pyIndentOf line : Int)
    if pyInStr "=" stripped
        && !(["if ", "for ", "while ", "elif "].any (fun p => pyStartsWith stripped p)) then
      let varName := pyStrip ((pySplitChar stripped '=').headD "")
      if !(["true", "false", "null", "undefined"].contains (pyLower varName)) then
        s!"{indentStr}let {stripped};"
      else s!"{indentStr}{stripped};"
    else if pyStartsWith stripped "print(" then
      let openParen := pyFind stripped "("
      let args :=
        match findCloseIdx (stripped.data.drop openParen.toNat) 0 0 with
        | some i => pySlice stripped (openParen + 1) (openParen + (i : Int))
        | none => ""
      s!"{indentStr}console.log({args});"
    else if pyStartsWith stripped "if " && pyEndsWith stripped ":" then
      let cond0 := pyStrip (pySlice stripped 3 (-1))
      let cond1 := pyReplace cond0 " and " " && "
      let cond2 := pyReplace cond1 " or " " || "
      let cond := pyReplace cond2 " not " " ! "
      s!"{indentStr}if ({cond}) \x7b"
    else if stripped = "else:" then
      s!"{indentStr}\x7d else \x7b"
    else if pyStartsWith stripped "for " && pyInStr " in " stripped && pyEndsWith stripped ":" then
      let varParts := pySplitStr stripped " in "
      let varName := pyStrip (pySlice (varParts.headD "") 4 ((varParts.headD "").data.length : Int))
      let coll := pyStrip (pySlice (varParts.getD 1 "") 0 (-1))
      s!"{indentStr}for (const {varName} of {coll}) \x7b"
    else if pyStartsWith stripped "while " && pyEndsWith stripped ":" then
      let cond0 := pyStrip (pySlice stripped 6 (-1))
      let cond1 := pyReplace cond0 "len(" ""
      let cond2 := pyReplace cond1 ")" ".length"
      let cond3 := pyReplace cond2 " and " " && "
      let cond4 := pyReplace cond3 " or " " || "
      let cond := pyReplace cond4 " not " " ! "
      s!"{indentStr}while ({cond}) \x7b"
    else if ['+', '-', '*', '/', '%'].any (fun op => stripped.data.contains op) then
      s!"{indentStr}{stripped};"
    else line

/-- The closing-brace pop loop of the second pass: close every pending
block whose indentation is at least the next line's. -/
def popBlocks (nextIndent : Nat) : List (Nat × Nat) → List (Nat × Nat) × List String
  | [] => ([], [])
  | (bi, idx) :: rest =>
    if nextIndent ≤ bi then
      let r := popBlocks nextIndent rest
      (r.1, (pyRepeat " " (bi : Int) ++ "\x7d") :: r.2)
    else ((bi, idx) :: rest, [])

/-- Second pass of `convert_control_structures`: walk the rewritten lines,
track `{`-opened blocks with their indentation, and emit closing braces
when the following line dedents (plus one closer per block left open at
the end). -/
def closeBlocksAux : List String → Nat → List (Nat × Nat) → List String
  | [], _, pending => pending.map (fun p => pyRepeat " " (p.1 : Int) ++ "\x7d")
  | line :: rest, i, pending =>
    let pending1 :=
      if pyEndsWith (pyStrip line) "\x7b" then (pyIndentOf line, i) :: pending else pending
    let stepped :=
      match rest.head? with
      | some nextLine =>
        if pending1 ≠ [] ∧ pyStrip nextLine ≠ "" ∧ ¬(pyStartsWith (pyStrip nextLine) "#") then
          popBlocks (pyIndentOf nextLine) pending1
        else (pending1, [])
      | none => (pending1, [])
    line :: (stepped.2 ++ closeBlocksAux rest (i + 1) stepped.1)

/-- `convert_control_structures`. -/
def convertControlStructures (src : String) : String :=
  let outputLines := (pySplitlines src).map ccFirstPassLine
  joinNl (closeBlocksAux outputLines 0 [])

/-- `convert_simple_expressions`: line-by-line rewriting of assignments
and `print` calls. -/
def convertSimpleExpressions (src : String) : String :=
  joinNl ((pySplitlines src).map
    (fun line =>
      let stripped := pyStrip line
      if stripped = "" || pyStartsWith stripped "#" then line
      else if pyInStr "=" stripped then
        let i := pyFind stripped "="
        let varName := pyStrip (pySlice stripped 0 i)
        let value := pyStrip (pySlice stripped (i + 1) (stripped.data.length : Int))
        s!"let {varName} = {value};"
      else if pyStartsWith stripped "print(" && pyEndsWith stripped ")" then
        let args := pySlice stripped 6 (-1)
        s!"console.log({args});"
      else line))

/-- What `compile_to_typescript` hands back, together with the final state
of the module-global error handler. -/
structure CompileResult where
  code : Option String
  errs : List String
  ehFinal : ErrorHandler
deriving DecidableEq, Repr

/-- The `PLYLexer.__init__` checks re-run by `new_lexer = PLYLexer(source)`
on line 101 of main.py; its token stream is never consumed (see the module
comment above). -/
def newLexerChecks (src : String) (eh : ErrorHandler) : ErrorHandler :=
  let lines := pySplitlines src
  (checkUnclosedDelimsErrors lines ++ checkInvalidCharsErrors lines).foldl addError eh

/-- `compile_to_typescript`, threaded over the module-global error
handler: clear it, drain a fresh lexer, pre-scan `def` names and trailing
commas, drop spurious undefined-function errors, then either take the
control-structure fast path, or report the accumulated errors, or fall
back to the simple-expression converter.  (`has_functions` only sets
`parser.indent_level`, which no reached code reads; `parser.parse` always
returns `None` and leaves the error handler untouched.) -/
def compileFull (src : String) (eh0 : ErrorHandler) : CompileResult :=
  let eh1 := clearErrors eh0
  let lx := lexAll src eh1
  let hasLexList := getErrorsByType lx.eh ErrorType.LEXICAL
  let defs := preScanDefs src
  let eh2 := trailingCommaScan src lx.eh
  let eh3 := removeFunctionErrors eh2 defs
  let ctrl := hasControlStructures src
  if ctrl && hasLexList.isEmpty then
    ⟨some (convertControlStructures src), [], eh3⟩
  else
    let eh4 := newLexerChecks src eh3
    if hasErrors eh4 then
      let fm := formatErrors eh4
      ⟨none, [fm.1], fm.2⟩
    else if ctrl then
      let fm := formatErrors eh4
      ⟨none, [fm.1], fm.2⟩
    else
      let ts := convertSimpleExpressions src
      if ts ≠ "" then ⟨some ts, [], eh4⟩
      else
        let fm := formatErrors eh4
        ⟨none, [fm.1], fm.2⟩

/-
Supporting lemmas.
-/

/-- The entry point clears the shared handler first, so its result is a
function of the source text alone. -/
theorem compileFull_const (src : String) (eh0 : ErrorHandler) :
    compileFull src eh0 = compileFull src ErrorHandler.init := rfl

/-- `pyEqCE` is reflexive. -/
theorem pyEqCE_refl (e : CompilerError) : pyEqCE e e = true := by
  simp [pyEqCE]

/-- `pyEqCE` is symmetric. -/
theorem pyEqCE_symm {a b : CompilerError} (h : pyEqCE a b = true) : pyEqCE b a = true := by
  simp only [pyEqCE, Bool.and_eq_true, decide_eq_true_eq] at h ⊢
  obtain ⟨⟨⟨h1, h2⟩, h3⟩, h4⟩ := h
  exact ⟨⟨⟨h1.symm, h2.symm⟩, h3.symm⟩, h4.symm⟩

/-- `pyEqCE` is transitive. -/
theorem pyEqCE_trans {a b c : CompilerError} (h1 : pyEqCE a b = true)
    (h2 : pyEqCE b c = true) : pyEqCE a c = true := by
  simp only [pyEqCE, Bool.and_eq_true, decide_eq_true_eq] at h1 h2 ⊢
  obtain ⟨⟨⟨x1, x2⟩, x3⟩, x4⟩ := h1
  obtain ⟨⟨⟨y1, y2⟩, y3⟩, y4⟩ := h2
  exact ⟨⟨⟨x1.trans y1, x2.trans y2⟩, x3.trans y3⟩, x4.trans y4⟩

/-- Whether a `__eq__`-equal copy of `e` is recorded in `eh` (the dedup
test of `add_error`). -/
def containsPy (eh : ErrorHandler) (e : CompilerError) : Bool :=
  eh.errors.any (fun x => pyEqCE e x)

/-- The reporter `eh'` extends `eh`: its error list is `eh`'s with some
suffix appended.  Every operation performed between `clear_errors` calls
except `remove_function_errors` and the `format_errors` sort only appends. -/
def ehExtends (eh eh' : ErrorHandler) : Prop :=
  ∃ l, eh'.errors = eh.errors ++ l

/-- Extension is reflexive. -/
theorem ehExtends_refl (eh : ErrorHandler) : ehExtends eh eh :=
  ⟨[], by simp⟩

/-- Extension is transitive. -/
theorem ehExtends_trans {a b c : ErrorHandler} (h1 : ehExtends a b)
    (h2 : ehExtends b c) : ehExtends a c := by
  obtain ⟨l1, e1⟩ := h1
  obtain ⟨l2, e2⟩ := h2
  exact ⟨l1 ++ l2, by simp [e2, e1]⟩

/-- `add_error` only appends. -/
theorem ehExtends_addError (eh : ErrorHandler) (e : CompilerError) :
    ehExtends eh (addError eh e) := by
  unfold addError
  split
  · exact ehExtends_refl eh
  · exact ⟨[e], rfl⟩

/-- The `t_NEWLINE` indentation bookkeeping only appends to the handler. -/
theorem ehExtends_newlineIndent (src : List Char) (lines : List String)
    (matchPos afterPos newLineno : Nat) (istack : List Nat) (queue : List QEntry)
    (eh : ErrorHandler) :
    ehExtends eh (newlineIndent src lines matchPos afterPos newLineno istack queue eh).2.2 := by
  unfold newlineIndent
  repeat' first
    | rfl
    | exact ehExtends_refl eh
    | exact ehExtends_addError eh _
    | dsimp only
    | split

/-- Property of a continuation: it only ever appends to the handler. -/
def KExtends (k : ScanK) : Prop :=
  ∀ pos lineno istack queue pstack bstack eh valid,
    ehExtends eh (k pos lineno istack queue pstack bstack eh valid).eh

/-- The string rule only appends to the handler. -/
theorem stringRule_extends {k : ScanK} (hk : KExtends k)
    (src : List Char) (lines : List String) (pos lineno : Nat) (istack : List Nat)
    (queue : List QEntry) (pstack bstack : List (Nat × Int)) (eh : ErrorHandler)
    (valid : Bool) (c : Char) :
    ehExtends eh (stringRule src lines k pos lineno istack queue pstack bstack eh valid c).eh := by
  unfold stringRule
  repeat' first
    | exact hk ..
    | exact ehExtends_trans (ehExtends_addError ..) (hk ..)
    | simp only [consTok]
    | dsimp only
    | split

/-- The identifier rule only appends to the handler. -/
theorem idRule_extends {k : ScanK} (hk : KExtends k)
    (src : List Char) (lines : List String) (pos lineno : Nat) (istack : List Nat)
    (queue : List QEntry) (pstack bstack : List (Nat × Int)) (eh : ErrorHandler)
    (valid : Bool) (c : Char) :
    ehExtends eh (idRule src lines k pos lineno istack queue pstack bstack eh valid c).eh := by
  unfold idRule
  repeat' first
    | exact hk ..
    | exact ehExtends_trans (ehExtends_addError ..) (hk ..)
    | simp only [consTok]
    | dsimp only
    | split

/-- The number rule only appends to the handler. -/
theorem numberRule_extends {k : ScanK} (hk : KExtends k)
    (src : List Char) (lines : List String) (pos lineno : Nat) (istack : List Nat)
    (queue : List QEntry) (pstack bstack : List (Nat × Int)) (eh : ErrorHandler)
    (valid : Bool) (c : Char) :
    ehExtends eh (numberRule src lines k pos lineno istack queue pstack bstack eh valid c).eh := by
  unfold numberRule
  repeat' first
    | exact hk ..
    | simp only [consTok]
    | dsimp only
    | split

/-- The newline rule only appends to the handler. -/
theorem newlineRule_extends {k : ScanK} (hk : KExtends k)
    (src : List Char) (lines : List String) (pos lineno : Nat) (istack : List Nat)
    (queue : List QEntry) (pstack bstack : List (Nat × Int)) (eh : ErrorHandler)
    (valid : Bool) :
    ehExtends eh (newlineRule src lines k pos lineno istack queue pstack bstack eh valid).eh := by
  unfold newlineRule
  simp only [consTok]
  exact ehExtends_trans (ehExtends_newlineIndent ..) (hk ..)

/-- The fixed-operator rule only appends to the handler. -/
theorem opRule_extends {k : ScanK} (hk : KExtends k)
    (kind : TokKind) (text : String) (width : Nat) (pos lineno : Nat)
    (istack : List Nat) (queue : List QEntry) (pstack bstack : List (Nat × Int))
    (eh : ErrorHandler) (valid : Bool) :
    ehExtends eh (opRule k kind text width pos lineno istack queue pstack bstack eh valid).eh := by
  unfold opRule
  simp only [consTok]
  exact hk ..

/-- The parenthesis and bracket rules only append to the handler. -/
theorem parenRules_extends {k : ScanK} (hk : KExtends k)
    (src : List Char) (lines : List String) (pos lineno : Nat) (istack : List Nat)
    (queue : List QEntry) (pstack bstack : List (Nat × Int)) (eh : ErrorHandler)
    (valid : Bool) :
    ehExtends eh (lparenRule src k pos lineno istack queue pstack bstack eh valid).eh ∧
    ehExtends eh (rparenRule src lines k pos lineno istack queue pstack bstack eh valid).eh ∧
    ehExtends eh (lbracketRule src k pos lineno istack queue pstack bstack eh valid).eh ∧
    ehExtends eh (rbracketRule src lines k pos lineno istack queue pstack bstack eh valid).eh := by
  refine ⟨?_, ?_, ?_, ?_⟩
  · unfold lparenRule
    simp only [consTok]
    exact hk ..
  · unfold rparenRule
    repeat' first
      | exact hk ..
      | exact ehExtends_trans (ehExtends_addError ..) (hk ..)
      | simp only [consTok]
      | dsimp only
      | split
  · unfold lbracketRule
    simp only [consTok]
    exact hk ..
  · unfold rbracketRule
    repeat' first
      | exact hk ..
      | exact ehExtends_trans (ehExtends_addError ..) (hk ..)
      | simp only [consTok]
      | dsimp only
      | split

/-- The error-character rule only appends to the handler. -/
theorem errCharRule_extends {k : ScanK} (hk : KExtends k)
    (src : List Char) (lines : List String) (pos lineno : Nat) (istack : List Nat)
    (queue : List QEntry) (pstack bstack : List (Nat × Int)) (eh : ErrorHandler)
    (valid : Bool) (c : Char) :
    ehExtends eh (errCharRule src lines k pos lineno istack queue pstack bstack eh valid c).eh := by
  unfold errCharRule
  repeat' first
    | exact hk ..
    | exact ehExtends_trans (ehExtends_addError ..) (hk ..)
    | dsimp only
    | split

/-- Push `ehExtends` through an `if` on `LexOut` by deciding the
condition (splitting the scan dispatcher's if-tree directly overwhelms
`split`). -/
theorem ehExtends_ite {p : Prop} {inst : Decidable p} {t e : LexOut} {eh : ErrorHandler}
    (ht : ehExtends eh t.eh) (he : ehExtends eh e.eh) :
    ehExtends eh (@ite _ p inst t e).eh := by
  cases inst with
  | isFalse h => exact he
  | isTrue h => exact ht

/-- One scan step only appends to the handler, provided the continuation
does. -/
theorem scanStep_extends {k : ScanK} (hk : KExtends k)
    (src : List Char) (lines : List String)
    (pos lineno : Nat) (istack : List Nat) (queue : List QEntry)
    (pstack bstack : List (Nat × Int)) (eh : ErrorHandler) (valid : Bool) :
    ehExtends eh (scanStep src lines k pos lineno istack queue pstack bstack eh valid).eh := by
  unfold scanStep
  split
  · exact ehExtends_refl _
  · repeat' first
      | apply ehExtends_ite
      | exact hk ..
      | exact stringRule_extends hk ..
      | exact idRule_extends hk ..
      | exact numberRule_extends hk ..
      | exact newlineRule_extends hk ..
      | exact opRule_extends hk ..
      | exact (parenRules_extends hk src lines pos lineno istack queue pstack bstack eh valid).1
      | exact (parenRules_extends hk src lines pos lineno istack queue pstack bstack eh valid).2.1
      | exact (parenRules_extends hk src lines pos lineno istack queue pstack bstack eh valid).2.2.1
      | exact (parenRules_extends hk src lines pos lineno istack queue pstack bstack eh valid).2.2.2
      | exact errCharRule_extends hk ..
      | exact ehExtends_trans (ehExtends_addError ..) (hk ..)

/-- The scan loop only appends to the handler. -/
theorem scan_extends (src : List Char) (lines : List String) :
    ∀ fuel pos lineno istack queue pstack bstack eh valid,
      ehExtends eh (scan src lines fuel pos lineno istack queue pstack bstack eh valid).eh := by
  intro fuel
  induction fuel with
  | zero =>
    intro pos lineno istack queue pstack bstack eh valid
    exact ehExtends_refl eh
  | succ n ih =>
    intro pos lineno istack queue pstack bstack eh valid
    exact scanStep_extends ih src lines pos lineno istack queue pstack bstack eh valid

/-- Folding `add_error` over a list only appends. -/
theorem ehExtends_foldl_addError (L : List CompilerError) :
    ∀ eh, ehExtends eh (L.foldl addError eh) := by
  induction L with
  | nil => intro eh; exact ehExtends_refl eh
  | cons a t ih =>
    intro eh
    exact ehExtends_trans (ehExtends_addError eh a) (ih (addError eh a))

/-- The trailing-comma pre-scan only appends. -/
theorem ehExtends_trailingCommaScan (src : String) (eh : ErrorHandler) :
    ehExtends eh (trailingCommaScan src eh) := by
  unfold trailingCommaScan
  generalize List.enumFrom 1 (pySplitlines src) = items
  induction items generalizing eh with
  | nil => exact ehExtends_refl eh
  | cons a t ih =>
    refine ehExtends_trans ?_ (ih _)
    repeat' first
      | dsimp only
      | split
      | exact ehExtends_addError ..
      | exact ehExtends_refl _

/-- Membership of a `__eq__`-copy survives appending. -/
theorem containsPy_mono {eh eh' : ErrorHandler} (h : ehExtends eh eh')
    {e : CompilerError} (hc : containsPy eh e = true) : containsPy eh' e = true := by
  obtain ⟨l, hl⟩ := h
  simp only [containsPy, hl, List.any_append, Bool.or_eq_true]
  exact Or.inl hc

/-- After `add_error e`, a copy of `e` is recorded. -/
theorem containsPy_addError_self (eh : ErrorHandler) (e : CompilerError) :
    containsPy (addError eh e) e = true := by
  unfold addError containsPy
  split
  · assumption
  · simp [pyEqCE_refl]

/-- Every member of the folded list ends up recorded. -/
theorem containsPy_foldl_addError {L : List CompilerError} {e : CompilerError}
    (hm : e ∈ L) : ∀ eh, containsPy (L.foldl addError eh) e = true := by
  induction L with
  | nil => cases hm
  | cons a t ih =>
    intro eh
    rcases List.mem_cons.mp hm with h | h
    · subst h
      exact containsPy_mono (ehExtends_foldl_addError t (addError eh e))
        (containsPy_addError_self eh e)
    · exact ih h (addError eh a)

/-- `remove_function_errors` only drops semantic errors, so a recorded
copy of a non-semantic error survives it. -/
theorem containsPy_removeFunctionErrors {eh : ErrorHandler} {e : CompilerError}
    (ht : e.etype ≠ ErrorType.SEMANTIC) (defs : List String)
    (hc : containsPy eh e = true) : containsPy (removeFunctionErrors eh defs) e = true := by
  simp only [containsPy, List.any_eq_true] at hc ⊢
  obtain ⟨x, hx, hpe⟩ := hc
  refine ⟨x, ?_, hpe⟩
  simp only [removeFunctionErrors, List.mem_filter]
  refine ⟨hx, ?_⟩
  simp only [pyEqCE, Bool.and_eq_true, decide_eq_true_eq] at hpe
  simp only [isRemovableFuncError, Bool.not_eq_true', Bool.and_eq_false_iff]
  left; left; left
  simp only [decide_eq_false_iff_not]
  rw [← hpe.1.1.1]
  exact ht

/-- Folding `add_error` over errors that are all already recorded is a
no-op. -/
theorem foldl_addError_noop {L : List CompilerError} :
    ∀ {eh : ErrorHandler}, (∀ e ∈ L, containsPy eh e = true) → L.foldl addError eh = eh := by
  induction L with
  | nil => intro eh _; rfl
  | cons a t ih =>
    intro eh h
    have ha : addError eh a = eh := by
      unfold addError
      have := h a (List.mem_cons_self a t)
      simp only [containsPy] at this
      simp [this]
    rw [List.foldl_cons, ha]
    exact ih (fun e he => h e (List.mem_cons_of_mem a he))

/-- A token whose kind can actually be emitted by `token()`: the
INDENT/DEDENT entries only ever reach the internal queue, and no rule
constructs an EOF token. -/
def layoutFree (t : PTok) : Bool :=
  match t.kind with
  | TokKind.INDENT => false
  | TokKind.DEDENT => false
  | TokKind.EOF => false
  | _ => true

/-- A layout-free token is neither INDENT nor DEDENT nor EOF. -/
theorem layoutFree_spec {t : PTok} (h : layoutFree t = true) :
    t.kind ≠ TokKind.INDENT ∧ t.kind ≠ TokKind.DEDENT ∧ t.kind ≠ TokKind.EOF := by
  cases htk : t.kind <;> simp_all [layoutFree]

/-- Property of a continuation: it only emits layout-free tokens. -/
def KLayout (k : ScanK) : Prop :=
  ∀ pos lineno istack queue pstack bstack eh valid,
    ((k pos lineno istack queue pstack bstack eh valid).toks.all layoutFree) = true

/-- Push the layout-free property through an `if` on `LexOut`. -/
theorem layout_ite {p : Prop} {inst : Decidable p} {t e : LexOut}
    (ht : (t.toks.all layoutFree) = true) (he : (e.toks.all layoutFree) = true) :
    (((@ite _ p inst t e).toks.all layoutFree)) = true := by
  cases inst with
  | isFalse h => exact he
  | isTrue h => exact ht

/-- The string rule emits only layout-free tokens. -/
theorem stringRule_layout {k : ScanK} (hk : KLayout k)
    (src : List Char) (lines : List String) (pos lineno : Nat) (istack : List Nat)
    (queue : List QEntry) (pstack bstack : List (Nat × Int)) (eh : ErrorHandler)
    (valid : Bool) (c : Char) :
    ((stringRule src lines k pos lineno istack queue pstack bstack eh valid c).toks.all
      layoutFree) = true := by
  unfold stringRule
  repeat' first
    | dsimp only
    | split
  all_goals simp [consTok, List.all_cons, hk .., layoutFree]

/-- The identifier rule emits only layout-free tokens. -/
theorem idRule_layout {k : ScanK} (hk : KLayout k)
    (src : List Char) (lines : List String) (pos lineno : Nat) (istack : List Nat)
    (queue : List QEntry) (pstack bstack : List (Nat × Int)) (eh : ErrorHandler)
    (valid : Bool) (c : Char) :
    ((idRule src lines k pos lineno istack queue pstack bstack eh valid c).toks.all
      layoutFree) = true := by
  unfold idRule
  dsimp only
  simp only [consTok, List.all_cons, hk .., Bool.and_true]
  split <;> rfl

/-- The number rule emits only layout-free tokens. -/
theorem numberRule_layout {k : ScanK} (hk : KLayout k)
    (src : List Char) (lines : List String) (pos lineno : Nat) (istack : List Nat)
    (queue : List QEntry) (pstack bstack : List (Nat × Int)) (eh : ErrorHandler)
    (valid : Bool) (c : Char) :
    ((numberRule src lines k pos lineno istack queue pstack bstack eh valid c).toks.all
      layoutFree) = true := by
  unfold numberRule
  repeat' first
    | dsimp only
    | split
  all_goals simp [consTok, List.all_cons, hk .., layoutFree]

/-- The newline rule emits only layout-free tokens (the queued
INDENT/DEDENT entries are not tokens of the stream). -/
theorem newlineRule_layout {k : ScanK} (hk : KLayout k)
    (src : List Char) (lines : List String) (pos lineno : Nat) (istack : List Nat)
    (queue : List QEntry) (pstack bstack : List (Nat × Int)) (eh : ErrorHandler)
    (valid : Bool) :
    ((newlineRule src lines k pos lineno istack queue pstack bstack eh valid).toks.all
      layoutFree) = true := by
  unfold newlineRule
  simp [consTok, List.all_cons, hk .., layoutFree]

/-- The fixed-operator rule emits only layout-free tokens for any of the
kinds it is instantiated with in the dispatcher. -/
theorem opRule_layout {k : ScanK} (hk : KLayout k)
    (kind : TokKind) (hkind : layoutFree ⟨kind, TokValue.s "", 0, 0⟩ = true)
    (text : String) (width : Nat) (pos lineno : Nat)
    (istack : List Nat) (queue : List QEntry) (pstack bstack : List (Nat × Int))
    (eh : ErrorHandler) (valid : Bool) :
    ((opRule k kind text width pos lineno istack queue pstack bstack eh valid).toks.all
      layoutFree) = true := by
  unfold opRule
  simp only [consTok, List.all_cons, hk .., Bool.and_true]
  simpa [layoutFree] using hkind

/-- The parenthesis and bracket rules emit only layout-free tokens. -/
theorem parenRules_layout {k : ScanK} (hk : KLayout k)
    (src : List Char) (lines : List String) (pos lineno : Nat) (istack : List Nat)
    (queue : List QEntry) (pstack bstack : List (Nat × Int)) (eh : ErrorHandler)
    (valid : Bool) :
    ((lparenRule src k pos lineno istack queue pstack bstack eh valid).toks.all
      layoutFree) = true ∧
    ((rparenRule src lines k pos lineno istack queue pstack bstack eh valid).toks.all
      layoutFree) = true ∧
    ((lbracketRule src k pos lineno istack queue pstack bstack eh valid).toks.all
      layoutFree) = true ∧
    ((rbracketRule src lines k pos lineno istack queue pstack bstack eh valid).toks.all
      layoutFree) = true := by
  refine ⟨?_, ?_, ?_, ?_⟩
  · unfold lparenRule
    simp [consTok, List.all_cons, hk .., layoutFree]
  · unfold rparenRule
    repeat' first
      | dsimp only
      | split
    all_goals simp [consTok, List.all_cons, hk .., layoutFree]
  · unfold lbracketRule
    simp [consTok, List.all_cons, hk .., layoutFree]
  · unfold rbracketRule
    repeat' first
      | dsimp only
      | split
    all_goals simp [consTok, List.all_cons, hk .., layoutFree]

/-- The error-character rule emits only layout-free tokens (it emits
none). -/
theorem errCharRule_layout {k : ScanK} (hk : KLayout k)
    (src : List Char) (lines : List String) (pos lineno : Nat) (istack : List Nat)
    (queue : List QEntry) (pstack bstack : List (Nat × Int)) (eh : ErrorHandler)
    (valid : Bool) (c : Char) :
    ((errCharRule src lines k pos lineno istack queue pstack bstack eh valid c).toks.all
      layoutFree) = true := by
  unfold errCharRule
  repeat' first
    | dsimp only
    | split
  all_goals exact hk ..

/-- One scan step emits only layout-free tokens, provided the
continuation does. -/
theorem scanStep_layout {k : ScanK} (hk : KLayout k)
    (src : List Char) (lines : List String)
    (pos lineno : Nat) (istack : List Nat) (queue : List QEntry)
    (pstack bstack : List (Nat × Int)) (eh : ErrorHandler) (valid : Bool) :
    ((scanStep src lines k pos lineno istack queue pstack bstack eh valid).toks.all
      layoutFree) = true := by
  unfold scanStep
  split
  · rfl
  · repeat' first
      | apply layout_ite
      | exact hk ..
      | exact stringRule_layout hk ..
      | exact idRule_layout hk ..
      | exact numberRule_layout hk ..
      | exact newlineRule_layout hk ..
      | exact opRule_layout hk _ rfl ..
      | exact (parenRules_layout hk src lines pos lineno istack queue pstack bstack eh valid).1
      | exact (parenRules_layout hk src lines pos lineno istack queue pstack bstack eh valid).2.1
      | exact (parenRules_layout hk src lines pos lineno istack queue pstack bstack eh valid).2.2.1
      | exact (parenRules_layout hk src lines pos lineno istack queue pstack bstack eh valid).2.2.2

/-- The whole scan emits only layout-free tokens. -/
theorem scan_layout (src : List Char) (lines : List String) :
    ∀ fuel pos lineno istack queue pstack bstack eh valid,
      ((scan src lines fuel pos lineno istack queue pstack bstack eh valid).toks.all
        layoutFree) = true := by
  intro fuel
  induction fuel with
  | zero =>
    intro pos lineno istack queue pstack bstack eh valid
    rfl
  | succ n ih =>
    intro pos lineno istack queue pstack bstack eh valid
    exact scanStep_layout ih src lines pos lineno istack queue pstack bstack eh valid

/-- The tokenizer's output stream consists of layout-free tokens only. -/
theorem tokensOf_layoutFree (src : String) : ((tokensOf src).all layoutFree) = true := by
  unfold tokensOf lexAll
  exact scan_layout ..

/-- Number of tokens of a given kind in a token list. -/
def countKind (k : TokKind) (ts : List PTok) : Nat :=
  ts.countP (fun t => t.kind = k)

/-- A layout kind never occurs in the tokenizer's output. -/
theorem countKind_layout_zero (src : String) (kd : TokKind)
    (hkd : kd = TokKind.INDENT ∨ kd = TokKind.DEDENT ∨ kd = TokKind.EOF) :
    countKind kd (tokensOf src) = 0 := by
  refine List.countP_eq_zero.mpr ?_
  intro t ht
  have hall := List.all_eq_true.mp (tokensOf_layoutFree src) t ht
  have hspec := layoutFree_spec hall
  rcases hkd with h | h | h <;> subst h <;> simp_all

/-
State of the shared handler at the decision points of
`compile_to_typescript`, named so the theorems can speak about them.
-/

/-- The handler state right after the front-end of a compile call: clear,
lexer `__init__` checks, full tokenization, trailing-comma pre-scan and
`remove_function_errors` (main.py lines 17-83).  `clear_errors` makes the
result independent of the prior state. -/
def frontendEH (src : String) : ErrorHandler :=
  removeFunctionErrors
    (trailingCommaScan src (lexAll src (clearErrors ErrorHandler.init)).eh)
    (preScanDefs src)

/-- The fast-path condition of main.py line 95: control structures
detected and no lexical diagnostic recorded. -/
def fastPathCond (src : String) : Bool :=
  hasControlStructures src
    && (getErrorsByType (lexAll src (clearErrors ErrorHandler.init)).eh
        ErrorType.LEXICAL).isEmpty

/-- Every error of `check_unclosed_delimiters` is syntactic. -/
theorem checkUnclosedDelims_syntactic {lines : List String} {e : CompilerError}
    (h : e ∈ checkUnclosedDelimsErrors lines) : e.etype = ErrorType.SYNTACTIC := by
  simp only [checkUnclosedDelimsErrors, List.mem_flatten, List.mem_map] at h
  obtain ⟨l, ⟨li, _, rfl⟩, hmem⟩ := h
  rcases List.mem_append.mp hmem with hcase | hcase
  · split at hcase
    · rw [List.mem_singleton.mp hcase]
    · cases hcase
  · split at hcase
    · rw [List.mem_singleton.mp hcase]
    · cases hcase

/-- Every error of `check_invalid_characters` is lexical. -/
theorem checkInvalidChars_lexical {lines : List String} {e : CompilerError}
    (h : e ∈ checkInvalidCharsErrors lines) : e.etype = ErrorType.LEXICAL := by
  simp only [checkInvalidCharsErrors, List.mem_flatten, List.mem_map] at h
  obtain ⟨l, ⟨li, _, rfl⟩, hmem⟩ := h
  simp only [List.mem_flatten, List.mem_map] at hmem
  obtain ⟨l2, ⟨ch, _, rfl⟩, hmem2⟩ := hmem
  repeat' split at hmem2
  all_goals simp_all [List.mem_singleton]

/-- The `PLYLexer.__init__` checks of the second lexer built on main.py
line 101 re-add errors that are already recorded (and of a type
`remove_function_errors` never drops), so they are a no-op on the handler
state reached there. -/
theorem newLexerChecks_frontend (src : String) :
    newLexerChecks src (frontendEH src) = frontendEH src := by
  unfold newLexerChecks
  apply foldl_addError_noop
  intro e he
  have hne : e.etype ≠ ErrorType.SEMANTIC := by
    rcases List.mem_append.mp he with h | h
    · rw [checkUnclosedDelims_syntactic h]
      intro hcon
      cases hcon
    · rw [checkInvalidChars_lexical h]
      intro hcon
      cases hcon
  apply containsPy_removeFunctionErrors hne
  apply containsPy_mono (ehExtends_trailingCommaScan ..)
  show containsPy (lexAll src (clearErrors ErrorHandler.init)).eh e = true
  unfold lexAll
  apply containsPy_mono (scan_extends ..)
  exact containsPy_foldl_addError he _

/-
Reachability of error-handler states, for the dedup claim: every state an
`ErrorHandler` instance can be driven into through its mutating methods
(`add_error` — including the two conditional `add_error` calls inside
`check_type_compatibility` — `clear_errors`, `remove_function_errors`,
and the in-place sort performed by `format_errors`).
-/

/-- Reachable handler states. -/
inductive EHReachable : ErrorHandler → Prop where
  | init : EHReachable ⟨[], false⟩
  | add (eh : ErrorHandler) (e : CompilerError) :
      EHReachable eh → EHReachable (addError eh e)
  | clear (eh : ErrorHandler) : EHReachable eh → EHReachable (clearErrors eh)
  | removeFn (eh : ErrorHandler) (defs : List String) :
      EHReachable eh → EHReachable (removeFunctionErrors eh defs)
  | format (eh : ErrorHandler) : EHReachable eh → EHReachable (formatErrors eh).2

/-- Counting through the stable insertion. -/
theorem countP_stableInsert (p : CompilerError → Bool) (x : CompilerError) :
    ∀ l : List CompilerError,
      (stableInsert x l).countP p = l.countP p + (if p x then 1 else 0) := by
  intro l
  induction l with
  | nil => simp [stableInsert, List.countP_cons]
  | cons y t ih =>
    unfold stableInsert
    split
    all_goals simp only [List.countP_cons, ih]
    all_goals try omega

/-- The `format_errors` sort preserves counts. -/
theorem countP_stableSortCE (p : CompilerError → Bool) (l : List CompilerError) :
    (stableSortCE l).countP p = l.countP p := by
  unfold stableSortCE
  suffices h : ∀ (l acc : List CompilerError),
      (l.foldl (fun a x => stableInsert x a) acc).countP p = acc.countP p + l.countP p by
    simpa using h l []
  intro l
  induction l with
  | nil => simp
  | cons x t ih =>
    intro acc
    simp only [List.foldl_cons, ih, countP_stableInsert, List.countP_cons]
    omega

/-- Filtering never increases a count. -/
theorem countP_filter_le (p q : CompilerError → Bool) (l : List CompilerError) :
    (l.filter q).countP p ≤ l.countP p := by
  induction l with
  | nil => simp
  | cons x t ih =>
    simp only [List.filter_cons, List.countP_cons]
    split
    · simp only [List.countP_cons]
      omega
    · omega

/-- Dedup invariant: in every reachable handler state each diagnostic has
at most one `__eq__`-equal copy recorded. -/
theorem reachable_countP_le_one {eh : ErrorHandler} (h : EHReachable eh)
    (d : CompilerError) : eh.errors.countP (pyEqCE d) ≤ 1 := by
  induction h with
  | init => simp
  | add eh0 e _ ih =>
    unfold addError
    split
    · exact ih
    · next hany =>
      simp only [List.countP_append, List.countP_cons, List.countP_nil]
      by_cases hde : pyEqCE d e = true
      · have hzero : eh0.errors.countP (pyEqCE d) = 0 := by
          by_contra hpos
          have hex := List.countP_pos_iff.mp (Nat.pos_of_ne_zero hpos)
          obtain ⟨x, hx, hdx⟩ := hex
          have : pyEqCE e x = true := pyEqCE_trans (pyEqCE_symm hde) hdx
          have : eh0.errors.any (fun x => pyEqCE e x) = true :=
            List.any_eq_true.mpr ⟨x, hx, this⟩
          simp_all
        simp [hzero, hde]
      · simp only [Bool.not_eq_true] at hde
        simp [hde, ih]
  | clear eh0 _ _ => simp [clearErrors]
  | removeFn eh0 defs _ ih =>
    unfold removeFunctionErrors
    exact le_trans (countP_filter_le ..) ih
  | format eh0 _ ih =>
    unfold formatErrors
    split
    · exact ih
    · simpa [countP_stableSortCE] using ih

/-
Claim theorems.
-/

/-- A dict assignment at an absent key appends the binding. -/
theorem dictSet_append {d : List (String × Symbol)} {n : String}
    (h : (d.find? (fun p => p.1 = n)).isSome = false) (sym : Symbol) :
    dictSet d n sym = d ++ [(n, sym)] := by
  unfold dictSet
  simp [h]

/-- Presence in a dict is presence of the key. -/
theorem dictGet_isSome (d : List (String × Symbol)) (n : String) :
    (dictGet d n).isSome = (d.find? (fun p => p.1 = n)).isSome := by
  unfold dictGet
  cases h : d.find? (fun p => p.1 = n) <;> simp [h]

/-- C3: a symbol of kind "function" is bound in the global scope no
matter which scope is active (the scope chain above the global scope is
untouched), and a name already bound in the relevant scope — global for
functions, current otherwise — makes `define` return false, record a
diagnostic message, and leave every binding unchanged. -/
theorem define_function_global_and_first_binding_kept (st : SymTable) (sym : Symbol) :
    (sym.kind = "function" → (dictGet st.globalScope.symbols sym.name).isSome = false →
      defineSym st sym =
        (true, { st with globalScope :=
          { st.globalScope with symbols := st.globalScope.symbols ++ [(sym.name, sym)] } })) ∧
    (sym.kind = "function" → (dictGet st.globalScope.symbols sym.name).isSome = true →
      defineSym st sym =
        (false, { st with errors := st.errors ++
          ["Error semántico: La función '" ++ sym.name ++ "' ya está definida"] })) ∧
    (sym.kind ≠ "function" → (dictGet (st.current).symbols sym.name).isSome = true →
      defineSym st sym =
        (false, { st with errors := st.errors ++
          ["Error semántico: La variable '" ++ sym.name ++ "' ya está definida en este ámbito"] })) := by
  refine ⟨?_, ?_, ?_⟩
  · intro hk habs
    unfold defineSym
    rw [if_pos hk]
    have habs' : (st.globalScope.symbols.find? (fun p => p.1 = sym.name)).isSome = false := by
      rw [← dictGet_isSome]
      exact habs
    rw [if_neg (by rw [dictGet_isSome]; simp [habs'])]
    rw [dictSet_append habs']
  · intro hk hpres
    unfold defineSym
    rw [if_pos hk, if_pos (by simp [hpres])]
    rfl
  · intro hk hpres
    unfold defineSym
    rw [if_neg hk, if_pos (by simp [hpres])]
    rfl

/-- Witness for C3: on a fresh table, a new function binds globally, the
builtin `print` cannot be redefined as a function, and a variable named
like a bound name in the current (global) scope is rejected. -/
theorem define_function_global_and_first_binding_kept_witness :
    (defineSym symTableInit (Symbol.mk "suma" "function" "function" (some []) (some "int")) =
      (true, { symTableInit with globalScope :=
        { symTableInit.globalScope with symbols := symTableInit.globalScope.symbols ++
          [("suma", Symbol.mk "suma" "function" "function" (some []) (some "int"))] } })) ∧
    (defineSym symTableInit (Symbol.mk "print" "function" "function" none none) =
      (false, { symTableInit with errors := symTableInit.errors ++
        ["Error semántico: La función 'print' ya está definida"] })) ∧
    (defineSym symTableInit (Symbol.plain "len" "any" "variable") =
      (false, { symTableInit with errors := symTableInit.errors ++
        ["Error semántico: La variable 'len' ya está definida en este ámbito"] })) :=
  ⟨(define_function_global_and_first_binding_kept symTableInit
      (Symbol.mk "suma" "function" "function" (some []) (some "int"))).1 rfl rfl,
   (define_function_global_and_first_binding_kept symTableInit
      (Symbol.mk "print" "function" "function" none none)).2.1 rfl rfl,
   (define_function_global_and_first_binding_kept symTableInit
      (Symbol.plain "len" "any" "variable")).2.2 (by decide) rfl⟩

/-- C10: the scope stack never underflows — `exit_scope` at the global
scope (empty parent chain) is the identity, and `exit_scope` right after
`enter_scope` restores the previous table exactly. -/
theorem scope_stack_enter_exit_roundtrip :
    (∀ st : SymTable, st.above = [] → exitScope st = st) ∧
    (∀ (st : SymTable) (stype : String), exitScope (enterScope st stype) = st) := by
  constructor
  · intro st h
    unfold exitScope
    split
    · rfl
    · simp_all
  · intro st stype
    rfl

/-- Witness for C10 at the freshly built table. -/
theorem scope_stack_enter_exit_roundtrip_witness :
    exitScope symTableInit = symTableInit ∧
    exitScope (enterScope symTableInit "function") = symTableInit :=
  ⟨scope_stack_enter_exit_roundtrip.1 symTableInit rfl,
   scope_stack_enter_exit_roundtrip.2 symTableInit "function"⟩

/-- C8: in every reachable reporter state, adding the same diagnostic
twice leaves exactly one `__eq__`-equal copy recorded (`add_error` is a
no-op whenever a structurally equal diagnostic is present). -/
theorem add_error_twice_keeps_one_copy (eh : ErrorHandler) (d : CompilerError)
    (hr : EHReachable eh) :
    ((addError (addError eh d) d).errors.countP (pyEqCE d)) = 1 := by
  have hle := reachable_countP_le_one hr d
  by_cases hany : eh.errors.any (fun x => pyEqCE d x) = true
  · have h1 : addError eh d = eh := by
      unfold addError
      rw [if_pos hany]
    rw [h1, h1]
    have hpos : 0 < eh.errors.countP (pyEqCE d) :=
      List.countP_pos_iff.mpr (List.any_eq_true.mp hany)
    omega
  · have hzero : eh.errors.countP (pyEqCE d) = 0 := by
      rw [List.countP_eq_zero]
      intro a ha hpa
      exact hany (List.any_eq_true.mpr ⟨a, ha, hpa⟩)
    have h1 : addError eh d = { eh with errors := eh.errors ++ [d] } := by
      unfold addError
      rw [if_neg (by simpa using hany)]
    have h2 : addError { eh with errors := eh.errors ++ [d] } d =
        { eh with errors := eh.errors ++ [d] } := by
      unfold addError
      rw [if_pos (by simp [pyEqCE_refl])]
    rw [h1, h2]
    simp [List.countP_append, List.countP_cons, hzero, pyEqCE_refl]

/-- A sample diagnostic for the C8 witness. -/
def sampleCE : CompilerError :=
  ⟨ErrorType.SEMANTIC, 3, "Función 'suma' no está definida", "resultado = suma(5,)", 12,
   "Asegúrate de que la función 'suma' esté definida antes de usarla"⟩

/-- Witness for C8 at the freshly constructed handler. -/
theorem add_error_twice_keeps_one_copy_witness :
    ((addError (addError (⟨[], false⟩ : ErrorHandler) sampleCE) sampleCE).errors.countP
      (pyEqCE sampleCE)) = 1 :=
  add_error_twice_keeps_one_copy ⟨[], false⟩ sampleCE EHReachable.init

/-- C4 (amended): the tokenizer's stream never contains an end-of-input
token at all — `token()` forwards PLY's stream, which simply ends by
yielding nothing, and no rule constructs an EOF token. -/
theorem tokens_never_contain_eof (src : String) :
    countKind TokKind.EOF (tokensOf src) = 0 :=
  countKind_layout_zero src TokKind.EOF (Or.inr (Or.inr rfl))

/-- Counterexample to C4 as stated: tokenizing `x = 5\n` yields a
non-empty stream with no EOF token anywhere, so the stream does not
terminate with exactly one end-of-input token. -/
theorem tokens_example_lacks_eof :
    tokensOf "x = 5\n" ≠ [] ∧ countKind TokKind.EOF (tokensOf "x = 5\n") = 0 := by
  constructor
  · decide
  · decide

/-- C5: for every source text the number of INDENT tokens in the
tokenizer's output equals the number of DEDENT tokens (both are zero:
the queued entries of `t_NEWLINE` are never emitted by `token()`). -/
theorem indent_dedent_counts_equal (src : String) :
    countKind TokKind.INDENT (tokensOf src) = countKind TokKind.DEDENT (tokensOf src) := by
  rw [countKind_layout_zero src TokKind.INDENT (Or.inl rfl),
    countKind_layout_zero src TokKind.DEDENT (Or.inr (Or.inl rfl))]

/-- C9 (amended): the result of `compile_to_typescript` does not depend
on the reporter state left by earlier compilations — the shared
module-global handler is cleared on entry — so two calls on the same
text return equal results. -/
theorem compile_result_ignores_prior_reporter_state (src : String)
    (ehA ehB : ErrorHandler) : compileFull src ehA = compileFull src ehB :=
  (compileFull_const src ehA).trans (compileFull_const src ehB).symm

/-- Counterexample to C9 as stated: the reporter is one module-global
mutable instance shared by all calls, and its contents persist after a
call returns — compiling a source with an unterminated string leaves the
diagnostic recorded, so the collection is not empty when the next call
starts (it is only emptied by that call's own `clear_errors`). -/
theorem reporter_state_persists_after_compile :
    (compileFull "nombre = \"abc\nedad = 30\n" ErrorHandler.init).ehFinal.errors ≠ [] := by
  decide

/-- C2 (amended): compiling `for i in range(3):\n    print(i)\n` yields
zero diagnostics, and the generated output is the direct converter's
for-of loop over `range(3)` whose body is `console.log(i);` — the
counted-loop lowering of `TypeScriptGenerator.visit_for_stmt` is bypassed
by the control-structure fast path of `compile_to_typescript`. -/
theorem compile_range_for_scenario (eh0 : ErrorHandler) :
    (compileFull "for i in range(3):\n    print(i)\n" eh0).code =
      some "for (const i of range(3)) \x7b\n    console.log(i);\n\x7d" ∧
    (compileFull "for i in range(3):\n    print(i)\n" eh0).errs = [] ∧
    (compileFull "for i in range(3):\n    print(i)\n" eh0).ehFinal.errors = [] := by
  rw [compileFull_const]
  refine ⟨?_, ?_, ?_⟩ <;> decide

/-- Counterexample to C2 as stated: the generated output for that source
is the for-of loop above, and the counted loop
`for (let i = 0; i < 3; i++)` appears nowhere in it. -/
theorem compile_range_for_not_counted_loop :
    (compileFull "for i in range(3):\n    print(i)\n" ErrorHandler.init).code =
      some "for (const i of range(3)) \x7b\n    console.log(i);\n\x7d" ∧
    pyInStr "for (let i = 0; i < 3; i++)"
      "for (const i of range(3)) \x7b\n    console.log(i);\n\x7d" = false := by
  refine ⟨?_, ?_⟩ <;> decide

/-- C6: evaluation of the code at the failing input `x = 5\nreturn x\n`.
The claim (one semantic "return outside function" diagnostic, no output)
describes the intent of `p_return_statement` and of test_return_error.py,
but `PLYParser.parse` evaluates `lexer.errors` — an attribute `PLYLexer`
never sets — swallows the resulting AttributeError and returns `None`, so
`compile_to_typescript` falls through to `convert_simple_expressions` and
returns generated code with zero recorded diagnostics. -/
theorem compile_return_outside_function_scenario (eh0 : ErrorHandler) :
    compileFull "x = 5\nreturn x\n" eh0 =
      ⟨some "let x = 5;\nreturn x", [], ⟨[], false⟩⟩ := by
  rw [compileFull_const]
  decide

/-- C7: compiling `nombre = "abc\nedad = 30\n` produces no generated
output and records exactly one diagnostic, of kind Lexical, referencing
line 1 and reporting the unterminated string. -/
theorem compile_unterminated_string_scenario (eh0 : ErrorHandler) :
    (compileFull "nombre = \"abc\nedad = 30\n" eh0).code = none ∧
    ((compileFull "nombre = \"abc\nedad = 30\n" eh0).ehFinal.errors.map
      (fun e => (e.etype, e.line))) = [(ErrorType.LEXICAL, 1)] ∧
    ((compileFull "nombre = \"abc\nedad = 30\n" eh0).ehFinal.errors.all
      (fun e => pyInStr "String sin cerrar" e.message)) = true := by
  rw [compileFull_const]
  refine ⟨?_, ?_, ?_⟩ <;> decide

/-- C1 (amended): whenever the front end records at least one diagnostic,
`compile_to_typescript` returns no generated code and the full formatted
diagnostic list — except on the control-structure fast path (control
structures detected and no lexical diagnostic recorded), where the direct
conversion is returned as generated code and the recorded diagnostics are
dropped from the returned error list. -/
theorem compile_diagnostics_block_codegen (src : String) (eh0 : ErrorHandler)
    (hne : (frontendEH src).errors ≠ []) :
    (fastPathCond src = true →
      (compileFull src eh0).code = some (convertControlStructures src) ∧
      (compileFull src eh0).errs = []) ∧
    (fastPathCond src = false →
      (compileFull src eh0).code = none ∧
      (compileFull src eh0).errs = [(formatErrors (frontendEH src)).1]) := by
  constructor
  · intro hfp
    unfold fastPathCond at hfp
    simp only [clearErrors] at hfp
    unfold compileFull
    simp only [clearErrors]
    rw [if_pos hfp]
    exact ⟨rfl, rfl⟩
  · intro hfp
    unfold fastPathCond at hfp
    simp only [clearErrors] at hfp
    have hfe := newLexerChecks_frontend src
    have hhe : hasErrors (frontendEH src) = true := by
      unfold hasErrors
      exact decide_eq_true (List.length_pos.mpr hne)
    unfold frontendEH at hfe hhe ⊢
    simp only [clearErrors] at hfe hhe ⊢
    unfold compileFull
    simp only [clearErrors]
    rw [if_neg (by simp [hfp])]
    rw [hfe]
    rw [if_pos hhe]
    exact ⟨rfl, rfl⟩

/-- Witness for C1 (amended), on the unterminated-string source: a
diagnostic is recorded, the fast path does not apply, and the call
returns no code plus the formatted list. -/
theorem compile_diagnostics_block_codegen_witness :
    (compileFull "nombre = \"abc\nedad = 30\n" ErrorHandler.init).code = none ∧
    (compileFull "nombre = \"abc\nedad = 30\n" ErrorHandler.init).errs =
      [(formatErrors (frontendEH "nombre = \"abc\nedad = 30\n")).1] :=
  (compile_diagnostics_block_codegen "nombre = \"abc\nedad = 30\n" ErrorHandler.init
    (by decide)).2 (by decide)

/-- Counterexample to C1 as stated: `print(1,)\nif a:\n    b = 1\n`
records a trailing-comma syntactic diagnostic, yet the fast path returns
generated code and an empty error list. -/
theorem compile_fastpath_emits_despite_diagnostic :
    (compileFull "print(1,)\nif a:\n    b = 1\n" ErrorHandler.init).ehFinal.errors ≠ [] ∧
    (compileFull "print(1,)\nif a:\n    b = 1\n" ErrorHandler.init).code ≠ none ∧
    (compileFull "print(1,)\nif a:\n    b = 1\n" ErrorHandler.init).errs = [] :=
  ⟨by decide, by decide, rfl⟩

end Compylerts
